import Mathlib

/-!
Verification model of the AI tool-orchestration pipeline of the
task_manager_django repository.

The embedding covers:
* `ai/services1.py`: `extract_json_like`, `execute_tool_call`,
  `fallback_tool_call_three_step`, `get_ai_response`;
* `ai/tools.py`: `validate_due_date`, `search_tasks`, `generate_message`,
  `create_task`, `set_task_status`, `search_tasks_by_date_range`;
* `ai/services.py`: `search_tasks` (the variant with a priority filter),
  `generate_message` (the dict-based variant), `delete_task_without_id`;
* the `Task` and `Category` rows of `tasks/models.py` restricted to the
  fields the code above reads or writes.

Python values decoded from model output are modelled by `Json`; the
database is a pair of row lists plus the task primary-key counter; each
Python function becomes a Lean function threading the database state
explicitly, and a Python exception escaping a function is an
`Except.error` carrying the exception's string.
-/

namespace TaskManager

/-- JSON values as produced by Python's `json.loads`.  Numbers are
modelled as integers only: float literals (and `NaN`/`Infinity`) are
outside the model, no claim touches them. -/
inductive Json where
  | null : Json
  | bool (b : Bool) : Json
  | num (n : Int) : Json
  | str (s : String) : Json
  | arr (elems : List Json) : Json
  | obj (fields : List (String × Json)) : Json
deriving Repr

namespace Json

mutual

/-- Structural boolean equality of JSON values. -/
def beq : Json → Json → Bool
  | .null, .null => true
  | .bool a, .bool b => a == b
  | .num a, .num b => a == b
  | .str a, .str b => a == b
  | .arr a, .arr b => beqList a b
  | .obj a, .obj b => beqObj a b
  | _, _ => false

def beqList : List Json → List Json → Bool
  | [], [] => true
  | a :: as, b :: bs => beq a b && beqList as bs
  | _, _ => false

def beqObj : List (String × Json) → List (String × Json) → Bool
  | [], [] => true
  | (k, v) :: as, (k', v') :: bs => k == k' && beq v v' && beqObj as bs
  | _, _ => false

end

mutual

theorem beq_iff_eq : ∀ a b : Json, beq a b = true ↔ a = b
  | .null, .null => by simp [beq]
  | .null, .bool _ | .null, .num _ | .null, .str _ | .null, .arr _
  | .null, .obj _ => by simp [beq]
  | .bool _, .null | .bool _, .num _ | .bool _, .str _ | .bool _, .arr _
  | .bool _, .obj _ => by simp [beq]
  | .num _, .null | .num _, .bool _ | .num _, .str _ | .num _, .arr _
  | .num _, .obj _ => by simp [beq]
  | .str _, .null | .str _, .bool _ | .str _, .num _ | .str _, .arr _
  | .str _, .obj _ => by simp [beq]
  | .arr _, .null | .arr _, .bool _ | .arr _, .num _ | .arr _, .str _
  | .arr _, .obj _ => by simp [beq]
  | .obj _, .null | .obj _, .bool _ | .obj _, .num _ | .obj _, .str _
  | .obj _, .arr _ => by simp [beq]
  | .bool a, .bool b => by simp [beq]
  | .num a, .num b => by simp [beq]
  | .str a, .str b => by simp [beq]
  | .arr a, .arr b => by
      simpa [beq] using beqList_iff_eq a b
  | .obj a, .obj b => by
      simpa [beq] using beqObj_iff_eq a b

theorem beqList_iff_eq : ∀ a b : List Json, beqList a b = true ↔ a = b
  | [], [] => by simp [beqList]
  | [], b :: bs => by simp [beqList]
  | a :: as, [] => by simp [beqList]
  | a :: as, b :: bs => by
      simp [beqList, Bool.and_eq_true, beq_iff_eq a b, beqList_iff_eq as bs]

theorem beqObj_iff_eq : ∀ a b : List (String × Json), beqObj a b = true ↔ a = b
  | [], [] => by simp [beqObj]
  | [], _ :: _ => by simp [beqObj]
  | _ :: _, [] => by simp [beqObj]
  | (k, v) :: as, (k', v') :: bs => by
      simp [beqObj, Bool.and_eq_true, beq_iff_eq v v', beqObj_iff_eq as bs,
        Prod.ext_iff, and_assoc]

end

instance : DecidableEq Json := fun a b =>
  if h : beq a b = true then .isTrue ((beq_iff_eq a b).mp h)
  else .isFalse (fun he => h ((beq_iff_eq a b).mpr he))

/-- Python truthiness of a decoded JSON value: `None`, `False`, `0`,
`""`, `[]` and `{}` are falsy, everything else truthy. -/
def truthy : Json → Bool
  | .null => false
  | .bool b => b
  | .num n => n != 0
  | .str s => !s.isEmpty
  | .arr l => !l.isEmpty
  | .obj o => !o.isEmpty

/-- Key lookup in a decoded JSON object (Python `d[k]` / `d.get(k)`).
Objects built by the parser have unique keys (later duplicates replace
earlier ones, as in a Python dict), so the first match is the value. -/
def getKey (fields : List (String × Json)) (k : String) : Option Json :=
  match fields.find? (fun p => p.1 = k) with
  | some p => some p.2
  | none => none

/-- Remove the entry for `k` (objects keep keys unique). -/
def eraseKey (fields : List (String × Json)) (k : String) :
    List (String × Json) :=
  match fields with
  | [] => []
  | (k', v') :: rest =>
      if k' = k then rest else (k', v') :: eraseKey rest k

/-- Prepend member `(k, v)` to the already-combined later members `o`,
with Python-dict duplicate handling: the key keeps its first position
but a later duplicate's value wins. -/
def consMember (k : String) (v : Json) (o : List (String × Json)) :
    List (String × Json) :=
  match getKey o k with
  | some w => (k, w) :: eraseKey o k
  | none => (k, v) :: o

end Json

/-! ### A model of `json.loads`

Recursive-descent parser over the character list, with fuel.  It accepts
the JSON grammar restricted to integer numbers; a fraction or exponent
part makes the parse fail (floats are outside the model).  String
escapes `\" \\ \/ \b \f \n \r \t` and `\uXXXX` are supported. -/

namespace JsonParse

def isWs (c : Char) : Bool :=
  c = ' ' || c = '\t' || c = '\n' || c = '\r'

def skipWs : List Char → List Char
  | [] => []
  | c :: cs => if isWs c then skipWs cs else c :: cs

def isDigit (c : Char) : Bool := '0' ≤ c && c ≤ '9'

/-- Read a maximal run of decimal digits. -/
def takeDigits : List Char → (List Char × List Char)
  | [] => ([], [])
  | c :: cs =>
      if isDigit c then
        let (ds, rest) := takeDigits cs
        (c :: ds, rest)
      else ([], c :: cs)

def digitsToNat (ds : List Char) : Nat :=
  ds.foldl (fun acc c => 10 * acc + (c.toNat - 48)) 0

/-- Parse a JSON number (integer part only; a following `.`, `e` or `E`
makes the whole parse fail, mirroring that float literals are not
modelled). -/
def parseNum (cs : List Char) : Option (Json × List Char) :=
  let (neg, cs') := match cs with
    | '-' :: rest => (true, rest)
    | _ => (false, cs)
  match takeDigits cs' with
  | ([], _) => none
  | (ds, rest) =>
      -- JSON forbids leading zeros: "01" is invalid.
      if ds.length > 1 && ds.head? = some '0' then none
      else match rest with
        | '.' :: _ => none
        | 'e' :: _ => none
        | 'E' :: _ => none
        | _ =>
            let n : Int := Int.ofNat (digitsToNat ds)
            some (.num (if neg then -n else n), rest)

/-- Value of one hex digit, written over character codes (48-57 are
the decimal digits, 97-102 lowercase a-f, 65-70 uppercase A-F). -/
def hexVal (c : Char) : Option Nat :=
  let n := c.toNat
  if 48 ≤ n && n ≤ 57 then some (n - 48)
  else if 97 ≤ n && n ≤ 102 then some (n - 87)
  else if 65 ≤ n && n ≤ 70 then some (n - 55)
  else none

/-- The single-character string escapes (`\u` is handled separately). -/
def simpleEsc : Char → Option Char
  | '"' => some '"'
  | '\\' => some '\\'
  | '/' => some '/'
  | 'b' => some '\x08'
  | 'f' => some '\x0c'
  | 'n' => some '\n'
  | 'r' => some '\r'
  | 't' => some '\t'
  | _ => none

/-- Parse the body of a string literal after the opening quote. -/
def parseStringBody : List Char → Option (List Char × List Char)
  | [] => none
  | '"' :: rest => some ([], rest)
  | '\\' :: 'u' :: a :: b :: c :: d :: rest =>
      (match hexVal a, hexVal b, hexVal c, hexVal d with
       | some x, some y, some z, some w =>
          let code := ((x * 16 + y) * 16 + z) * 16 + w
          if code.isValidChar then
            match parseStringBody rest with
            | some (s, rem) => some (Char.ofNat code :: s, rem)
            | none => none
          else none
       | _, _, _, _ => none)
  | '\\' :: e :: rest =>
      (match simpleEsc e with
       | some c =>
          match parseStringBody rest with
          | some (s, rem) => some (c :: s, rem)
          | none => none
       | none => none)
  | c :: rest =>
      -- json.loads rejects raw control characters inside strings.
      if c.toNat < 0x20 then none
      else match parseStringBody rest with
        | some (s, rem) => some (c :: s, rem)
        | none => none

mutual

/-- Parse one JSON value (leading whitespace is the caller's job apart
from the initial skip here). -/
def parseVal (fuel : Nat) (cs : List Char) : Option (Json × List Char) :=
  match fuel with
  | 0 => none
  | fuel + 1 =>
    match skipWs cs with
    | 'n' :: 'u' :: 'l' :: 'l' :: rest => some (.null, rest)
    | 't' :: 'r' :: 'u' :: 'e' :: rest => some (.bool true, rest)
    | 'f' :: 'a' :: 'l' :: 's' :: 'e' :: rest => some (.bool false, rest)
    | '"' :: rest =>
        match parseStringBody rest with
        | some (s, rem) => some (.str (String.mk s), rem)
        | none => none
    | '[' :: rest =>
        (match skipWs rest with
         | ']' :: rem => some (.arr [], rem)
         | other => match parseElems fuel other with
           | some (l, rem) => some (.arr l, rem)
           | none => none)
    | '{' :: rest =>
        (match skipWs rest with
         | '}' :: rem => some (.obj [], rem)
         | other => match parseMembers fuel other with
           | some (o, rem) => some (.obj o, rem)
           | none => none)
    | other => parseNum other

/-- Comma-separated array elements up to the closing bracket. -/
def parseElems (fuel : Nat) (cs : List Char) : Option (List Json × List Char) :=
  match fuel with
  | 0 => none
  | fuel + 1 =>
    match parseVal fuel cs with
    | none => none
    | some (j, rest) =>
        match skipWs rest with
        | ',' :: rest' =>
            (match parseElems fuel rest' with
             | some (l, rem) => some (j :: l, rem)
             | none => none)
        | ']' :: rem => some ([j], rem)
        | _ => none

/-- Comma-separated object members up to the closing brace; duplicate
keys are resolved like a Python dict (last value wins, original
position kept). -/
def parseMembers (fuel : Nat) (cs : List Char) :
    Option (List (String × Json) × List Char) :=
  match fuel with
  | 0 => none
  | fuel + 1 =>
    match skipWs cs with
    | '"' :: rest =>
        (match parseStringBody rest with
         | none => none
         | some (k, rest') =>
            match skipWs rest' with
            | ':' :: rest'' =>
                (match parseVal fuel rest'' with
                 | none => none
                 | some (v, rest3) =>
                    match skipWs rest3 with
                    | ',' :: rest4 =>
                        (match parseMembers fuel rest4 with
                         | some (o, rem) =>
                             some (Json.consMember (String.mk k) v o, rem)
                         | none => none)
                    | '}' :: rem => some ([(String.mk k, v)], rem)
                    | _ => none)
            | _ => none)
    | _ => none

end

end JsonParse

/-- Model of `json.loads` on a whole document: one value, possibly
surrounded by whitespace, nothing else. -/
def Json.parse (s : String) : Option Json :=
  let cs := s.toList
  match JsonParse.parseVal (2 * cs.length + 2) cs with
  | some (j, rest) => if JsonParse.skipWs rest = [] then some j else none
  | none => none

/-! ### String scanning helpers for `extract_json_like` (services1.py) -/

namespace StrScan

/-- Index of the first position where `pat` occurs in `cs`. -/
def findSubAux (cs pat : List Char) (i : Nat) : Option Nat :=
  if pat.isPrefixOf cs then some i
  else match cs with
    | [] => none
    | _ :: t => findSubAux t pat (i + 1)

def findSub (cs pat : List Char) : Option Nat := findSubAux cs pat 0

/-- Does `pat` occur in `s` (Python `pat in s` on strings)? -/
def strContains (s pat : String) : Bool :=
  (findSub s.toList pat.toList).isSome

/-- Index of the first occurrence of character `c`. -/
def findChar (cs : List Char) (c : Char) : Option Nat :=
  cs.findIdx? (· = c)

/-- Index of the last occurrence of character `c` (Python `str.rfind`). -/
def rfindChar (cs : List Char) (c : Char) : Option Nat :=
  match (cs.reverse).findIdx? (· = c) with
  | some i => some (cs.length - 1 - i)
  | none => none

/-- The slice `text[i:j+1]` (empty when the bounds cross, as in Python). -/
def slice (cs : List Char) (i j : Nat) : String :=
  String.mk ((cs.drop i).take (j + 1 - i))

end StrScan

/-! ### `extract_json_like` (ai/services1.py, lines 15-75)

The function first tries `json.loads` on the whole text, then a cascade
of regex-extracted candidates, then a final first-brace/last-brace
attempt.  The two markdown-fence regexes (non-greedy `(.*?)` between
`\s*` anchors) are modelled as a left-to-right scan over successive
fence pairs with the captured text trimmed, which agrees with
`re.findall` on the fence layouts that arise in practice; the greedy
`{(.*)}` and `\[(.*)\]` patterns match from the first opening delimiter
that has a closing delimiter after it to the last closing delimiter. -/

namespace ExtractJson

/-- A regex-captured candidate, processed as in the Python loop: empty
candidates are skipped, a candidate whose stripped form does not start
with `{` or `[` is wrapped in braces, then `json.loads` is tried. -/
def tryCandidate (candidate : String) : Option Json :=
  if candidate.isEmpty then none
  else
    let stripped := candidate.trim
    let cand :=
      if stripped.startsWith "\x7b" || stripped.startsWith "[" then candidate
      else "\x7b" ++ candidate ++ "\x7d"
    Json.parse cand

/-- Captured groups of successive ```-fenced blocks opened by `openM`
(either the 7 characters of a json fence or a bare fence), trimmed. -/
def fenceGroups (openM : List Char) : List Char → Nat → List String
  | _, 0 => []
  | cs, fuel + 1 =>
    match StrScan.findSub cs openM with
    | none => []
    | some i =>
        let afterOpen := cs.drop (i + openM.length)
        match StrScan.findSub afterOpen ("```".toList) with
        | none => []
        | some j =>
            (String.mk (afterOpen.take j)).trim ::
              fenceGroups openM (afterOpen.drop (j + 3)) fuel

/-- First candidate in the list that parses. -/
def firstParse : List String → Option Json
  | [] => none
  | c :: rest =>
      match tryCandidate c with
      | some j => some j
      | none => firstParse rest

/-- The greedy `{(.*)}` (resp. `\[(.*)\]`) pattern: group between the
first opening delimiter that precedes the last closing delimiter. -/
def greedyGroup (cs : List Char) (openC closeC : Char) : Option Json :=
  match StrScan.rfindChar cs closeC with
  | none => none
  | some j =>
      match StrScan.findChar (cs.take j) openC with
      | none => none
      | some i => tryCandidate (StrScan.slice cs (i + 1) (j - 1))

/-- Final attempt: substring from the first opening delimiter to the
last closing delimiter (their order is not checked), fed to
`json.loads`; braces are tried before brackets. -/
def finalTry (cs : List Char) (openC closeC : Char) : Option Json :=
  match StrScan.findChar cs openC, StrScan.rfindChar cs closeC with
  | some i, some j => Json.parse (StrScan.slice cs i j)
  | _, _ => none

end ExtractJson

/-- `extract_json_like` of ai/services1.py: direct `json.loads`, then
json-fence blocks, generic fence blocks, greedy brace and bracket
patterns, then the final first/last-delimiter attempt.  Empty input is
falsy and yields `None` at once. -/
def extractJsonLike (text : String) : Option Json :=
  if text.isEmpty then none
  else match Json.parse text with
  | some j => some j
  | none =>
      let cs := text.toList
      match ExtractJson.firstParse
          (ExtractJson.fenceGroups ("```json".toList) cs (cs.length + 1)) with
      | some j => some j
      | none =>
      match ExtractJson.firstParse
          (ExtractJson.fenceGroups ("```".toList) cs (cs.length + 1)) with
      | some j => some j
      | none =>
      match ExtractJson.greedyGroup cs '\x7b' '\x7d' with
      | some j => some j
      | none =>
      match ExtractJson.greedyGroup cs '[' ']' with
      | some j => some j
      | none =>
      match ExtractJson.finalTry cs '\x7b' '\x7d' with
      | some j => some j
      | none => ExtractJson.finalTry cs '[' ']'

/-! ### Calendar dates and times -/

/-- A calendar date (`datetime.date`). -/
structure Date where
  year : Nat
  month : Nat
  day : Nat
deriving Repr, DecidableEq

def isLeap (y : Nat) : Bool :=
  y % 4 = 0 && (y % 100 != 0 || y % 400 = 0)

def daysInMonth (y m : Nat) : Nat :=
  if m = 2 then (if isLeap y then 29 else 28)
  else if m = 4 || m = 6 || m = 9 || m = 11 then 30
  else 31

def Date.valid (d : Date) : Bool :=
  1 ≤ d.year && d.year ≤ 9999 && 1 ≤ d.month && d.month ≤ 12 &&
  1 ≤ d.day && d.day ≤ daysInMonth d.year d.month

/-- Lexicographic date order (the order of `datetime.date`). -/
def Date.le (a b : Date) : Bool :=
  a.year < b.year || (a.year = b.year &&
    (a.month < b.month || (a.month = b.month && a.day ≤ b.day)))

def Date.lt (a b : Date) : Bool := Date.le a b && a ≠ b

def allDigits (cs : List Char) : Bool := cs.all JsonParse.isDigit

/-- `date.fromisoformat`: exactly `YYYY-MM-DD` with a valid calendar
date (the pre-3.11 strict form, which is what matters here: any string
this rejects raises `ValueError`). -/
def parseIsoDate (s : String) : Option Date :=
  match s.toList with
  | [y1, y2, y3, y4, '-', m1, m2, '-', d1, d2] =>
      if allDigits [y1, y2, y3, y4, m1, m2, d1, d2] then
        let d : Date := ⟨JsonParse.digitsToNat [y1, y2, y3, y4],
                         JsonParse.digitsToNat [m1, m2],
                         JsonParse.digitsToNat [d1, d2]⟩
        if d.valid then some d else none
      else none
  | _ => none

/-- Split on a separator character, keeping empty pieces (the
behaviour of Python `str.split(sep)` / `String.splitOn` for a one-char
separator). -/
def splitOnChar (sep : Char) : List Char → List (List Char)
  | [] => [[]]
  | c :: rest =>
      if c = sep then [] :: splitOnChar sep rest
      else match splitOnChar sep rest with
        | h :: t => (c :: h) :: t
        | [] => [[c]]

/-- `datetime.strptime(s, "%Y-%m-%d")` (`validate_due_date`): `%Y`
matches exactly four digits, `%m` and `%d` one or two, and a zero year
is rejected (`MINYEAR` is 1). -/
def parseDateStrptime (s : String) : Option Date :=
  match splitOnChar '-' s.toList with
  | [ys, ms, ds] =>
      if ys.length = 4 && allDigits ys &&
         ms ≠ [] && ms.length ≤ 2 && allDigits ms &&
         ds ≠ [] && ds.length ≤ 2 && allDigits ds then
        let d : Date := ⟨JsonParse.digitsToNat ys, JsonParse.digitsToNat ms,
                         JsonParse.digitsToNat ds⟩
        if d.valid then some d else none
      else none
  | _ => none

def pad2 (n : Nat) : String :=
  if n < 10 then "0" ++ toString n else toString n

def pad4 (n : Nat) : String :=
  if n < 10 then "000" ++ toString n
  else if n < 100 then "00" ++ toString n
  else if n < 1000 then "0" ++ toString n
  else toString n

/-- `date.strftime("%Y-%m-%d")` / `date.isoformat()`. -/
def dateToStr (d : Date) : String :=
  pad4 d.year ++ "-" ++ pad2 d.month ++ "-" ++ pad2 d.day

/-- A time of day (`datetime.time`), seconds resolution. -/
structure Time where
  hour : Nat
  minute : Nat
  second : Nat
deriving Repr, DecidableEq

/-- `datetime.strptime(s, "%H:%M:%S").time()`: three colon-separated
fields of 1-2 digits, in range. -/
def parseTimeStrptime (s : String) : Option Time :=
  match splitOnChar ':' s.toList with
  | [hs, ms, ss] =>
      if hs ≠ [] && hs.length ≤ 2 && allDigits hs &&
         ms ≠ [] && ms.length ≤ 2 && allDigits ms &&
         ss ≠ [] && ss.length ≤ 2 && allDigits ss then
        let h := JsonParse.digitsToNat hs
        let m := JsonParse.digitsToNat ms
        let sec := JsonParse.digitsToNat ss
        if h ≤ 23 && m ≤ 59 && sec ≤ 59 then some ⟨h, m, sec⟩ else none
      else none
  | _ => none

def timeToStr (t : Time) : String :=
  pad2 t.hour ++ ":" ++ pad2 t.minute ++ ":" ++ pad2 t.second

/-! ### Python `str()` of decoded JSON values

Used where the code interpolates a decoded value into an f-string or a
`CharField`.  For scalars this is exact; for containers the Python
`repr` is approximated (no theorem depends on the container case). -/

/-- A single-quote character, for building Python-style messages. -/
def sq : String := String.singleton '\''

mutual

def pyStr : Json → String
  | .null => "None"
  | .bool true => "True"
  | .bool false => "False"
  | .num n => toString n
  | .str s => s
  | .arr l => "[" ++ pyReprList l ++ "]"
  | .obj o => "\x7b" ++ pyReprObj o ++ "\x7d"

def pyRepr : Json → String
  | .str s => sq ++ s ++ sq
  | .null => "None"
  | .bool true => "True"
  | .bool false => "False"
  | .num n => toString n
  | .arr l => "[" ++ pyReprList l ++ "]"
  | .obj o => "\x7b" ++ pyReprObj o ++ "\x7d"

def pyReprList : List Json → String
  | [] => ""
  | [j] => pyRepr j
  | j :: rest => pyRepr j ++ ", " ++ pyReprList rest

def pyReprObj : List (String × Json) → String
  | [] => ""
  | [(k, v)] => sq ++ k ++ sq ++ ": " ++ pyRepr v
  | (k, v) :: rest => sq ++ k ++ sq ++ ": " ++ pyRepr v ++ ", " ++ pyReprObj rest

end

/-! ### The task store

`Task` and `Category` rows restricted to the fields the embedded code
reads or writes; the remaining model fields (project, assignment,
timestamps, …) are never touched by the AI tools and are omitted.
`nextTaskId` models the auto-increment primary-key sequence of the Task
table (categories are only ever read by this code). -/

abbrev User := Nat

structure TaskRow where
  id : Nat
  user : User
  title : String
  /-- `TextField(null=True)`: `none` models SQL NULL. -/
  description : Option String
  dueDate : Option Date
  startTime : Option Time
  endTime : Option Time
  categoryId : Option Nat
  status : String
  priority : Int
deriving Repr, DecidableEq

structure CatRow where
  id : Nat
  user : User
  name : String
deriving Repr, DecidableEq

structure DB where
  tasks : List TaskRow
  cats : List CatRow
  nextTaskId : Nat
deriving Repr, DecidableEq

/-- `Task.objects.filter(user=user)`, in table order. -/
def tasksOf (u : User) (db : DB) : List TaskRow :=
  db.tasks.filter (fun t => t.user == u)

def catsOf (u : User) (db : DB) : List CatRow :=
  db.cats.filter (fun c => c.user == u)

/-! ### `search_tasks` (ai/tools.py, lines 17-55)

Each filter key contributes a row predicate; an unparseable `due_date`
or date-range string is a `ValueError` that the code swallows (`pass`),
dropping that filter; a non-string date value raises `TypeError` out of
the function.  A Django queryset keeps the WHERE clause and re-runs it
for `.exists()`, `.update()` and `.count()`, which is why the predicate
is factored out. -/

/-- Python `int(...)` of a decoded value (no floats in the model):
`None` on the values where `int()` raises. -/
def pyToInt : Json → Option Int
  | .num n => some n
  | .bool b => some (if b then 1 else 0)
  | .str s =>
      let cs := (s.trim).toList
      let (neg, ds) := match cs with
        | '-' :: rest => (true, rest)
        | '+' :: rest => (false, rest)
        | _ => (false, cs)
      if ds ≠ [] && allDigits ds then
        some (if neg then -(Int.ofNat (JsonParse.digitsToNat ds))
              else Int.ofNat (JsonParse.digitsToNat ds))
      else none
  | _ => none

/-- `filter(category_id=v)`: SQL comparison of the integer id column
against the decoded value.  SQLite numeric affinity converts numeric
text (and booleans) to integers; `None` compares as `IS NULL`. -/
def catIdMatch (v : Json) (cid : Option Nat) : Bool :=
  match v with
  | .num n => (match cid with | some c => (c : Int) == n | none => false)
  | .str s =>
      (match pyToInt (.str s) with
       | some n => (match cid with | some c => (c : Int) == n | none => false)
       | none => false)
  | .bool b => (match cid with | some c => c == (if b then 1 else 0) | none => false)
  | .null => cid == none
  | _ => false

/-- `filter(status=v)` against the text status column:
`CharField.get_prep_value` passes a string or `None` through and
renders every other operand with `str(...)`, so a numeric operand
compares as its decimal text and a boolean as `"True"`/`"False"`;
`None` becomes an `IS NULL` comparison that never matches the NOT NULL
column. -/
def statusValMatch (rowStatus : String) (v : Json) : Bool :=
  match v with
  | .str s => rowStatus == s
  | .null => false
  | v => rowStatus == pyStr v

/-- The `due_date` clause: a parse failure is swallowed (`pass`), a
non-string raises. -/
def duePredE (filters : List (String × Json)) :
    Except String (TaskRow → Bool) :=
  match Json.getKey filters "due_date" with
  | none => .ok (fun _ => true)
  | some (.str s) =>
      (match parseIsoDate s with
       | some d => .ok (fun t => t.dueDate == some d)
       | none => .ok (fun _ => true))   -- ValueError: pass
  | some _ => .error "fromisoformat: argument must be str"

/-- The `start_date`/`end_date` range clause (both keys required); the
bounds are parsed in order, a `ValueError` on either drops the whole
clause, a non-string raises. -/
def rangePredE (filters : List (String × Json)) :
    Except String (TaskRow → Bool) :=
  match Json.getKey filters "start_date", Json.getKey filters "end_date" with
  | some sv, some ev =>
      (match sv with
       | .str ss =>
           (match parseIsoDate ss with
            | none => .ok (fun _ => true)   -- ValueError: pass
            | some sd =>
                match ev with
                | .str es =>
                    (match parseIsoDate es with
                     | none => .ok (fun _ => true)
                     | some ed =>
                         .ok (fun t =>
                           match t.dueDate with
                           | some d => sd.le d && d.le ed
                           | none => false))
                | _ => .error "fromisoformat: argument must be str")
       | _ => .error "fromisoformat: argument must be str")
  | _, _ => .ok (fun _ => true)

/-- The conjunction of row predicates contributed by a `search_tasks`
filter dict (the queryset's WHERE clause beyond `user=user`), or the
`TypeError` a non-string date value raises. -/
def filtersPredE (filters : List (String × Json)) :
    Except String (TaskRow → Bool) :=
  match duePredE filters with
  | .error e => .error e
  | .ok pdue =>
    match rangePredE filters with
    | .error e => .error e
    | .ok prange =>
      .ok (fun t =>
        (match Json.getKey filters "category_id" with
         | some v => catIdMatch v t.categoryId
         | none => true) &&
        pdue t && prange t &&
        (match Json.getKey filters "status" with
         | some v => statusValMatch t.status v
         | none => true))

/-- `order_by('-priority', 'due_date')`: priority descending, then due
date ascending with NULLs first (SQLite), stable on ties. -/
def taskOrdLe (a b : TaskRow) : Bool :=
  if a.priority = b.priority then
    match a.dueDate, b.dueDate with
    | none, _ => true
    | some _, none => false
    | some d1, some d2 => d1.le d2
  else a.priority > b.priority

/-- Insert after all already-placed rows that compare `≤`, keeping the
sort stable. -/
def insertTask (t : TaskRow) : List TaskRow → List TaskRow
  | [] => [t]
  | h :: rest => if taskOrdLe h t then h :: insertTask t rest else t :: h :: rest

/-- Stable sort by `taskOrdLe` (a deterministic model of the SQL
`ORDER BY`, whose tie order is unspecified). -/
def orderTasks (l : List TaskRow) : List TaskRow :=
  l.foldl (fun acc t => insertTask t acc) []

/-- `search_tasks(user, filters)` of ai/tools.py: the user's tasks,
filtered and ordered; with no filters the queryset is returned without
the `order_by` (table order). -/
def searchTasks (u : User) (filters : List (String × Json)) (db : DB) :
    Except String (List TaskRow) :=
  if filters.isEmpty then .ok (tasksOf u db)
  else match filtersPredE filters with
    | .error e => .error e
    | .ok p => .ok (orderTasks ((tasksOf u db).filter p))

/-! ### `generate_message` (ai/tools.py, lines 57-71) -/

/-- FK access `task.category`: a primary-key `get` over the whole
Category table (not user-scoped). -/
def getCatById (db : DB) (cid : Nat) : Except String CatRow :=
  match db.cats.filter (fun c => c.id == cid) with
  | [c] => .ok c
  | [] => .error "Category matching query does not exist."
  | _ => .error "get() returned more than one Category"

def catLabel (db : DB) (t : TaskRow) : Except String String :=
  match t.categoryId with
  | none => .ok "No category"
  | some cid => (getCatById db cid).map (·.name)

def dueLabel (t : TaskRow) : String :=
  match t.dueDate with
  | some d => dateToStr d
  | none => "No deadline"

def taskLine (db : DB) (t : TaskRow) : Except String String :=
  (catLabel db t).map fun cn =>
    t.title ++ " (Due: " ++ dueLabel t ++ ") (Category: " ++ cn ++ ")"

def generateMessageAux (db : DB) (idx : Nat) : List TaskRow → Except String String
  | [] => .ok ""
  | t :: rest =>
      match taskLine db t, generateMessageAux db (idx + 1) rest with
      | .ok line, .ok restMsg => .ok ("\n" ++ toString idx ++ ". " ++ line ++ restMsg)
      | .error e, _ => .error e
      | _, .error e => .error e

/-- `generate_message(tasks)`: the `Except` tracks the
`Category.DoesNotExist` a dangling FK would raise. -/
def generateMessage (db : DB) (tasks : List TaskRow) : Except String String :=
  match tasks with
  | [] => .ok "No tasks found."
  | [t] =>
      (catLabel db t).map fun cn =>
        "Found task: " ++ sq ++ t.title ++ sq ++ " (Due: " ++ dueLabel t ++
          ") (Category: " ++ cn ++ ")"
  | ts =>
      (generateMessageAux db 1 ts).map fun body =>
        "Found " ++ toString ts.length ++ " tasks:" ++ body

/-! ### `create_task` (ai/tools.py, lines 74-139)

The happy path appends one row with the next primary key; every failure
is caught inside the function and returned as a structured error
payload (`invalid_format` for a `ValueError`, `invalid_category` for a
missing category, a generic message for anything else), so the function
itself never raises.  Modelled exception texts stand in for CPython's
message strings where the code stores `str(e)`. -/

def invalidFormatPayload (msg : String) : Json :=
  .obj [("status", .str "error"), ("message", .str msg),
        ("error", .str "invalid_format")]

def genericCreatePayload (e : String) : Json :=
  .obj [("status", .str "error"),
        ("message", .str "An error occurred while creating the task."),
        ("error", .str e)]

def invalidCategoryPayload : Json :=
  .obj [("status", .str "error"),
        ("message", .str "Category not found or access denied."),
        ("error", .str "invalid_category")]

/-- `validate_due_date(kwargs['due_date'])` when the key is present:
an unparseable string is the caught `ValueError`, a non-string the
`TypeError` that falls through to the blanket handler. -/
def dueDateStep (args : List (String × Json)) : Except Json (Option Date) :=
  match Json.getKey args "due_date" with
  | none => .ok none
  | some (.str s) =>
      (match parseDateStrptime s with
       | some d => .ok (some d)
       | none => .error (invalidFormatPayload "Invalid date format. Use YYYY-MM-DD."))
  | some _ => .error (genericCreatePayload "strptime() argument 1 must be str")

/-- `datetime.strptime(kwargs['start_time'], "%H:%M:%S")` when present. -/
def startTimeStep (args : List (String × Json)) : Except Json (Option Time) :=
  match Json.getKey args "start_time" with
  | none => .ok none
  | some (.str s) =>
      (match parseTimeStrptime s with
       | some t => .ok (some t)
       | none => .error (invalidFormatPayload "Invalid start_time format. Use HH:MM:SS."))
  | some _ => .error (genericCreatePayload "strptime() argument 1 must be str")

/-- Same for `end_time`. -/
def endTimeStep (args : List (String × Json)) : Except Json (Option Time) :=
  match Json.getKey args "end_time" with
  | none => .ok none
  | some (.str s) =>
      (match parseTimeStrptime s with
       | some t => .ok (some t)
       | none => .error (invalidFormatPayload "Invalid end_time format. Use HH:MM:SS."))
  | some _ => .error (genericCreatePayload "strptime() argument 1 must be str")

/-- Django `IntegerField.get_prep_value` on the `id` lookup operand:
`int(...)` with the field's error message on failure — a non-numeric
string is a `ValueError` that `create_task`'s handler reports as
`invalid_format`, a list or dict the `TypeError` that falls through to
the blanket handler; `None` passes through to an `IS NULL` match. -/
def catIdPrep : Json → Except Json (Option Int)
  | .null => .ok none
  | .num n => .ok (some n)
  | .bool b => .ok (some (if b then 1 else 0))
  | .str s =>
      (match pyToInt (.str s) with
       | some n => .ok (some n)
       | none => .error (invalidFormatPayload
           ("Field " ++ sq ++ "id" ++ sq ++ " expected a number but got " ++
             pyRepr (.str s) ++ ".")))
  | v => .error (genericCreatePayload
      ("Field " ++ sq ++ "id" ++ sq ++ " expected a number but got " ++
        pyRepr v ++ "."))

/-- `Category.objects.get(id=kwargs['category_id'], user=user)` when
the key is present: the converted operand against the primary key,
owner-scoped. -/
def categoryStep (u : User) (args : List (String × Json)) (cats : List CatRow) :
    Except Json (Option Nat) :=
  match Json.getKey args "category_id" with
  | none => .ok none
  | some v =>
      match catIdPrep v with
      | .error p => .error p
      | .ok idOperand =>
          match cats.filter (fun c =>
              (match idOperand with
               | some n => (c.id : Int) == n
               | none => false) && c.user == u) with
          | [c] => .ok (some c.id)
          | [] => .error invalidCategoryPayload
          | _ => .error (genericCreatePayload "get() returned more than one Category")

/-- `kwargs['title']` raises `KeyError` when absent; `str(e)` is
`'title'`. -/
def titleStep (args : List (String × Json)) : Except Json Json :=
  match Json.getKey args "title" with
  | none => .error (genericCreatePayload (sq ++ "title" ++ sq))
  | some titleV => .ok titleV

/-- The `IntegerField` conversion of `priority` (default 1) at save
time. -/
def priorityStep (args : List (String × Json)) : Except Json Int :=
  match (Json.getKey args "priority").getD (.num 1) with
  | .num n => .ok n
  | .bool b => .ok (if b then (1 : Int) else 0)
  | .str s =>
      (match pyToInt (.str s) with
       | some n => .ok n
       | none => .error (invalidFormatPayload
           ("invalid literal for int() with base 10: " ++ sq ++ s ++ sq)))
  | _ => .error (genericCreatePayload "int() argument must not be NoneType")

/-- The insert itself: the NOT NULL columns reject an explicit null
title or status, otherwise the row is a function of the key the
sequence will allocate. -/
def rowStep (u : User) (args : List (String × Json)) (due : Option Date)
    (startT endT : Option Time) (catId : Option Nat) (titleV : Json)
    (prio : Int) : Except Json (Nat → TaskRow) :=
  if titleV = .null then
    .error (genericCreatePayload "NOT NULL constraint failed")
  else if (Json.getKey args "status").getD (.str "pending") = .null then
    .error (genericCreatePayload "NOT NULL constraint failed")
  else
    .ok (fun tid =>
      { id := tid, user := u, title := pyStr titleV,
        description :=
          (match (Json.getKey args "description").getD (.str "") with
           | .null => none
           | v => some (pyStr v)),
        dueDate := due, startTime := startT, endTime := endT,
        categoryId := catId,
        status := pyStr ((Json.getKey args "status").getD (.str "pending")),
        priority := prio })

/-- The validations and conversions of `create_task` up to the row that
`Task.objects.create` inserts, in source order; they depend only on the
arguments and the category table. -/
def buildTask (u : User) (args : List (String × Json)) (cats : List CatRow) :
    Except Json (Nat → TaskRow) :=
  dueDateStep args >>= fun due =>
  startTimeStep args >>= fun startT =>
  endTimeStep args >>= fun endT =>
  categoryStep u args cats >>= fun catId =>
  titleStep args >>= fun titleV =>
  priorityStep args >>= fun prio =>
  rowStep u args due startT endT catId titleV prio

/-- `create_task(user, **kwargs)`: on success appends the new row under
the next primary key and advances the sequence. -/
def createTask (u : User) (args : List (String × Json)) (db : DB) : Json × DB :=
  match buildTask u args db.cats with
  | .error p => (p, db)
  | .ok mk =>
      (.obj [("status", .str "success"),
             ("message", .str ("Task " ++ sq ++ (mk db.nextTaskId).title ++ sq ++
               " created successfully."))],
       { db with tasks := db.tasks ++ [mk db.nextTaskId],
                 nextTaskId := db.nextTaskId + 1 })

/-! ### `set_task_status` (ai/tools.py, lines 141-183) -/

/-- The `TypeError` message hashing an unhashable decoded value raises
(`status not in status_mapping` hashes its left operand), `none` when
the value is hashable. -/
def unhashableMsg : Json → Option String
  | .arr _ => some ("unhashable type: " ++ sq ++ "list" ++ sq)
  | .obj _ => some ("unhashable type: " ++ sq ++ "dict" ++ sq)
  | _ => none

/-- Membership of a hashable decoded status value in the Python dict
`{0: 'pending', 1: 'in_progress', 2: 'completed'}`.  Python booleans
hash equal to 0/1, so `True`/`False` are members too. -/
def statusKey : Json → Option String
  | .num 0 => some "pending"
  | .num 1 => some "in_progress"
  | .num 2 => some "completed"
  | .bool false => some "pending"
  | .bool true => some "in_progress"
  | _ => none

def genericStatusPayload (e : String) : Json :=
  .obj [("status", .str "error"),
        ("message", .str "An error occurred while updating task status."),
        ("error", .str e)]

/-- `set_task_status(user, **kwargs)`: pops `status`, tests it for
membership in the mapping (raising `TypeError` into the blanket
handler when it is unhashable), and runs one UPDATE whose WHERE clause
is `user=user` plus the remaining kwargs as `search_tasks` filters
(`.exists()`, `.update()` and the reported count all re-run that same
clause). -/
def setTaskStatus (u : User) (args : List (String × Json)) (db : DB) :
    Json × DB :=
  match Json.getKey args "status" with
  | none =>
      -- kwargs.pop('status') raises KeyError('status'), caught by the
      -- blanket handler; str(e) is "'status'"
      (genericStatusPayload (sq ++ "status" ++ sq), db)
  | some sv =>
      let rest := Json.eraseKey args "status"
      match unhashableMsg sv with
      | some m => (genericStatusPayload m, db)
      | none =>
        match statusKey sv with
        | none =>
            (.obj [("status", .str "error"),
                   ("message", .str ("Invalid status " ++ sq ++ pyStr sv ++ sq ++
                     ". Valid options are: 0=pending, 1=in_progress, 2=completed")),
                   ("error", .str "invalid_status")], db)
        | some sstr =>
            match filtersPredE rest with
            | .error e => (genericStatusPayload e, db)
            | .ok p =>
                let matching := (tasksOf u db).filter p
                if matching.isEmpty then
                  (.obj [("status", .str "success"),
                         ("message", .str "No tasks found matching your criteria.")], db)
                else
                  (.obj [("status", .str "success"),
                         ("message", .str ("Updated " ++ toString matching.length ++
                           " task(s) to status " ++ sq ++ sstr ++ sq ++ "."))],
                   { db with tasks := db.tasks.map (fun t =>
                       if t.user == u && p t then { t with status := sstr } else t) })

/-! ### `search_tasks_by_date_range` (ai/tools.py, lines 185-225) -/

def valueErrorSearchPayload (msg : String) : Json :=
  .obj [("status", .str "error"), ("message", .str msg)]

def genericSearchPayload : Json :=
  .obj [("status", .str "error"),
        ("message", .str "An error occurred while searching tasks.")]

/-- `search_tasks_by_date_range(user, start_date, end_date)`: validates
both bounds with `validate_due_date`, rejects a reversed range, then
searches and renders the message.  A non-string bound (`TypeError`) or
a dangling category FK inside `generate_message` lands in the blanket
handler. -/
def searchTasksByDateRange (u : User) (startV endV : Json) (db : DB) : Json :=
  match startV with
  | .str ss =>
      (match parseDateStrptime ss with
       | none => valueErrorSearchPayload "Invalid date format. Use YYYY-MM-DD."
       | some sd =>
           match endV with
           | .str es =>
               (match parseDateStrptime es with
                | none => valueErrorSearchPayload "Invalid date format. Use YYYY-MM-DD."
                | some ed =>
                    if ed.lt sd then
                      .obj [("status", .str "error"),
                            ("message", .str "End date cannot be before start date.")]
                    else
                      match searchTasks u
                          [("start_date", .str ss), ("end_date", .str es)] db with
                      | .error _ => genericSearchPayload
                      | .ok rows =>
                          match generateMessage db rows with
                          | .error _ => genericSearchPayload
                          | .ok msg =>
                              .obj [("status", .str "success"),
                                    ("message", .str msg),
                                    ("count", .num rows.length)])
           | _ => genericSearchPayload)
  | _ => genericSearchPayload

/-! ### `search_tasks` (ai/services.py, lines 42-84)

The services.py variant: `category_id`, `due_date` and `status` as in
tools.py, no date-range filter, plus a `priority` filter whose
`int(...)` conversion failure (`ValueError`/`TypeError`) silently drops
the filter. -/

def filtersPredSvcE (filters : List (String × Json)) :
    Except String (TaskRow → Bool) :=
  let pcat : TaskRow → Bool :=
    match Json.getKey filters "category_id" with
    | some v => fun t => catIdMatch v t.categoryId
    | none => fun _ => true
  match (match Json.getKey filters "due_date" with
         | none => .ok (fun _ => true)
         | some (.str s) =>
             (match parseIsoDate s with
              | some d => .ok (fun t => t.dueDate == some d)
              | none => .ok (fun _ => true))   -- ValueError: pass
         | some _ =>
             .error "fromisoformat: argument must be str" :
           Except String (TaskRow → Bool)) with
  | .error e => .error e
  | .ok pdue =>
    let pstatus : TaskRow → Bool :=
      match Json.getKey filters "status" with
      | some v => fun t => statusValMatch t.status v
      | none => fun _ => true
    let pprio : TaskRow → Bool :=
      match Json.getKey filters "priority" with
      | some v =>
          (match pyToInt v with
           | some n => fun t => t.priority == n
           | none => fun _ => true)   -- except (ValueError, TypeError): pass
      | none => fun _ => true
    .ok (fun t => pcat t && pdue t && pstatus t && pprio t)

def searchTasksSvc (u : User) (filters : List (String × Json)) (db : DB) :
    Except String (List TaskRow) :=
  if filters.isEmpty then .ok (tasksOf u db)
  else match filtersPredSvcE filters with
    | .error e => .error e
    | .ok p => .ok (orderTasks ((tasksOf u db).filter p))

/-! ### `delete_task_without_id` (ai/services.py, lines 184-214) -/

/-- `TaskSerializer(...).data` for one row, restricted to the fields
the model here carries (the serializer's project/assignment/timestamp
fields are never touched by the embedded code and are omitted).  FK
fields render as primary keys, dates and times as ISO strings. -/
def taskToJson (t : TaskRow) : Json :=
  .obj [("id", .num t.id),
        ("title", .str t.title),
        ("description", (match t.description with | some s => .str s | none => .null)),
        ("due_date", (match t.dueDate with | some d => .str (dateToStr d) | none => .null)),
        ("start_time", (match t.startTime with | some x => .str (timeToStr x) | none => .null)),
        ("end_time", (match t.endTime with | some x => .str (timeToStr x) | none => .null)),
        ("status", .str t.status),
        ("priority", .num t.priority),
        ("user", .num t.user),
        ("category", (match t.categoryId with | some c => .num c | none => .null))]

/-- `generate_message` (ai/services.py, lines 86-101): built from the
serialized dicts, so it reads `title` and `due_date` only (no category
lookup, no exception source). -/
def generateMessageSvc (tasks : List TaskRow) : String :=
  match tasks with
  | [] => "No tasks found."
  | [t] =>
      "Found task: " ++ sq ++ t.title ++ sq ++ " (Due: " ++
        (match t.dueDate with
         | some d => dateToStr d
         | none => "No deadline") ++ ")"
  | ts =>
      "Found " ++ toString ts.length ++ " tasks:" ++
        String.join ((List.enumFrom 1 ts).map (fun p =>
          "\n" ++ toString p.1 ++ ". " ++ p.2.title ++
            (match p.2.dueDate with
             | some d => " (Due: " ++ dateToStr d ++ ")"
             | none => "")))

def genericDeletePayload (e : String) : Json :=
  .obj [("status", .str "error"),
        ("message", .str "An error occurred while deleting tasks."),
        ("error", .str e)]

/-- `delete_task_without_id(user, **kwargs)`: searches the matching
tasks and returns them in a `confirm_delete` payload.  No `.delete()`
is issued on any path: the database is returned untouched. -/
def deleteTaskWithoutId (u : User) (args : List (String × Json)) (db : DB) :
    Json × DB :=
  match searchTasksSvc u args db with
  | .error e => (genericDeletePayload e, db)
  | .ok matching =>
      if matching.isEmpty then
        (.obj [("status", .str "success"),
               ("message", .str "No tasks found matching your criteria.")], db)
      else
        (.obj [("status", .str "success"),
               ("action", .str "confirm_delete"),
               ("data", .arr (matching.map taskToJson)),
               ("count", .num matching.length),
               ("message", .str (generateMessageSvc matching))], db)

/-! ### `execute_tool_call` (ai/services1.py, lines 78-92)

Dispatch by tool name over the three-handler catalog of services1.py.
The handlers themselves never raise (each has a blanket handler), but
the `**args` unpacking at the call site can: a non-dict `args`, a
`user` key, or a signature mismatch for the fixed-parameter
`search_tasks_by_date_range` raise `TypeError` out of
`execute_tool_call`.  Any other name returns the unknown-tool dict. -/

def executeToolCall (u : User) (toolName args : Json) (db : DB) :
    Except String (Json × DB) :=
  if toolName = .str "create_task" then
    match args with
    | .obj o =>
        if (Json.getKey o "user").isSome then
          .error "create_task() got multiple values for argument user"
        else .ok (createTask u o db)
    | _ => .error "argument after ** must be a mapping"
  else if toolName = .str "set_task_status" then
    match args with
    | .obj o =>
        if (Json.getKey o "user").isSome then
          .error "set_task_status() got multiple values for argument user"
        else .ok (setTaskStatus u o db)
    | _ => .error "argument after ** must be a mapping"
  else if toolName = .str "search_tasks_by_date_range" then
    match args with
    | .obj o =>
        if (Json.getKey o "user").isSome then
          .error "search_tasks_by_date_range() got multiple values for argument user"
        else
          (match Json.getKey o "start_date", Json.getKey o "end_date" with
           | some sv, some ev =>
               if o.all (fun p => p.1 == "start_date" || p.1 == "end_date") then
                 .ok (searchTasksByDateRange u sv ev db, db)
               else .error "search_tasks_by_date_range() got an unexpected keyword argument"
           | _, _ => .error "search_tasks_by_date_range() missing required argument")
    | _ => .error "argument after ** must be a mapping"
  else
    .ok (.obj [("user_message", .str ("Unknown tool function: " ++ pyStr toolName)),
               ("tool_result", .null)], db)

/-! ### Step 3 of `fallback_tool_call_three_step` (ai/services1.py,
lines 213-235): the execution loop -/

/-- One iteration of the loop.  `call.get("tool")` on a non-dict entry
raises `AttributeError` before the per-call `try` and aborts the loop;
a falsy tool name is skipped (`continue`, no entry); otherwise the call
executes and contributes a `result` entry, or an `error` entry holding
`str(e)` with the database untouched by the failed call. -/
def processCall (u : User) (call : Json) (db : DB) :
    Except String (Option Json × DB) :=
  match call with
  | .obj o =>
      if !((Json.getKey o "tool").getD .null).truthy then .ok (none, db)
      else
        match executeToolCall u ((Json.getKey o "tool").getD .null)
            ((Json.getKey o "args").getD (.obj [])) db with
        | .ok (result, db') =>
            .ok (some (.obj [("tool", (Json.getKey o "tool").getD .null),
                             ("args", (Json.getKey o "args").getD (.obj [])),
                             ("result", result)]), db')
        | .error e =>
            .ok (some (.obj [("tool", (Json.getKey o "tool").getD .null),
                             ("args", (Json.getKey o "args").getD (.obj [])),
                             ("error", .str e)]), db)
  | _ => .error "AttributeError: object has no attribute get"

/-- The whole loop.  The database is threaded through even when an
entry raises: side effects of earlier calls persist. -/
def executeCalls (u : User) : List Json → DB → Except String (List Json) × DB
  | [], db => (.ok [], db)
  | c :: rest, db =>
      match processCall u c db with
      | .error e => (.error e, db)
      | .ok (entry?, db') =>
          match executeCalls u rest db' with
          | (.error e, db'') => (.error e, db'')
          | (.ok l, db'') =>
              (.ok (match entry? with | some en => en :: l | none => l), db'')

/-- `for call in tool_calls` where `tool_calls` is the truthy value
extracted in step 2: iterating a truthy non-list raises on its first
element. -/
def executeBatch (u : User) (tc : Json) (db : DB) :
    Except String (List Json) × DB :=
  match tc with
  | .arr calls => executeCalls u calls db
  | _ => (.error "AttributeError: object has no attribute get", db)

/-! ### Steps 1 and 2 of `fallback_tool_call_three_step`
(ai/services1.py, lines 99-211) -/

/-- The early-return dict `{"user_message": ..., "tool_results": []}`. -/
def noToolsPayload (um : Json) : Json :=
  .obj [("user_message", um), ("tool_results", .arr [])]

/-- `[t["tool"] for t in tools_value if t["tool"]]`: collects the
truthy tool names; a non-dict element or a missing `tool` key raises. -/
def collectTools : List Json → Except String (List Json)
  | [] => .ok []
  | (.obj fs) :: rest =>
      (match Json.getKey fs "tool" with
       | none => .error ("KeyError: " ++ sq ++ "tool" ++ sq)
       | some v =>
           match collectTools rest with
           | .error e => .error e
           | .ok l => .ok (if v.truthy then v :: l else l))
  | _ :: _ => .error "TypeError: element is not subscriptable"

/-- The `tools`/`tool` branch of step 1 on a dict selection:
`tools_needed` or the exception its extraction raises. -/
def toolsOfSelection (o : List (String × Json)) : Except String (List Json) :=
  if (Json.getKey o "tools").isSome then
    match (Json.getKey o "tools").getD .null with
    | .arr ts => collectTools ts
    | .obj [] => .ok []     -- iterating an empty dict: no elements
    | .str "" => .ok []     -- iterating an empty string likewise
    | .obj _ => .error "TypeError: string indices must be integers"
    | .str _ => .error "TypeError: string indices must be integers"
    | _ => .error "TypeError: object is not iterable"
  else if (Json.getKey o "tool").isSome then
    .ok (if ((Json.getKey o "tool").getD .null).truthy
         then [(Json.getKey o "tool").getD .null] else [])
  else .ok []

/-- Step 1 on the (list-head-normalized) parsed selection. -/
def stage1OfJson (d : Json) : Except String (Json ⊕ List Json) :=
  match d with
  | .obj o =>
      (match toolsOfSelection o with
       | .error e => .error e
       | .ok needed =>
           if needed.isEmpty then
             .ok (.inl (noToolsPayload ((Json.getKey o "user_message").getD
               (.str "No tools needed, but here's the response."))))
           else .ok (.inr needed))
  | .str s =>
      if StrScan.strContains s "tools" then
        .error "TypeError: string indices must be integers"
      else if StrScan.strContains s "tool" then
        .error "TypeError: string indices must be integers"
      else if StrScan.strContains s "user_message" then
        .error "TypeError: string indices must be integers"
      else .ok (.inl (noToolsPayload
        (.str "No tools needed, but here's the response.")))
  | .arr l =>
      if l.contains (.str "tools") then
        .error "TypeError: list indices must be integers"
      else if l.contains (.str "tool") then
        .error "TypeError: list indices must be integers"
      else if l.contains (.str "user_message") then
        .error "TypeError: list indices must be integers"
      else .ok (.inl (noToolsPayload
        (.str "No tools needed, but here's the response.")))
  | _ => .error "TypeError: argument is not iterable"

/-- Step 1 after the model responded: parse the response, take the
head of a list result, then read the tool selection.  `inl` is an
early return (the no-JSON / falsy path returns the raw text, the
no-tool path the dict's own `user_message` or a fixed fallback);
`inr` is the non-empty `tools_needed` list.  Membership tests on a
non-dict mirror Python `in` (substring on strings, element membership
on lists, `TypeError` otherwise), and the subscriptions they lead to
all raise. -/
def stage1Decide (raw : String) : Except String (Json ⊕ List Json) :=
  match extractJsonLike raw with
  | none => .ok (.inl (noToolsPayload (.str raw)))
  | some ts0 =>
    if !ts0.truthy then .ok (.inl (noToolsPayload (.str raw)))
    else stage1OfJson
      (match ts0 with
       | .arr l => l.headD .null
       | other => other)

/-- The fixed early return of the step-2 parse failure. -/
def failedParsePayload : Json :=
  .obj [("user_message", .str "Failed to parse tool arguments"),
        ("tool_results", .arr [])]

def noToolCallsPayload : Json :=
  .obj [("user_message", .str "No tool calls were generated"),
        ("tool_results", .arr [])]

/-- Step 2 on the (list-head-normalized) parsed value: only a dict has
the `.get` the code calls. -/
def stage2OfJson (d : Json) : Except String (Json ⊕ Json) :=
  match d with
  | .obj o =>
      if !((Json.getKey o "tool_calls").getD (.arr [])).truthy then
        .ok (.inl noToolCallsPayload)
      else .ok (.inr ((Json.getKey o "tool_calls").getD (.arr [])))
  | _ => .error "AttributeError: object has no attribute get"

/-- Step 2 after the model responded: a falsy parse result (no JSON at
all, or a falsy JSON value) is the terminal "failed to parse" return;
a falsy `tool_calls` field the "no tool calls" return; `inr` carries
the truthy `tool_calls` value for step 3. -/
def stage2Decide (raw : String) : Except String (Json ⊕ Json) :=
  match extractJsonLike raw with
  | none => .ok (.inl failedParsePayload)
  | some j0 =>
    if !j0.truthy then .ok (.inl failedParsePayload)
    else stage2OfJson
      (match j0 with
       | .arr l => l.headD .null
       | other => other)

/-- Step 4 (ai/services1.py, lines 261-274): assemble the final value
from the summarization response.  Only a dict parse uses the model's
`user_message`/`details`; everything else (including `None`, whose
`.get` raises the caught `AttributeError`) falls back to the raw text
with empty details. -/
def assembleFinal (raw3 : String) (entries : List Json) : Json :=
  match extractJsonLike raw3 with
  | some (.obj o) =>
      .obj [("user_message", (Json.getKey o "user_message").getD (.str raw3)),
            ("details", (Json.getKey o "details").getD (.arr [])),
            ("tool_results", .arr entries)]
  | _ =>
      .obj [("user_message", .str raw3), ("details", .arr []),
            ("tool_results", .arr entries)]

/-! ### The pipeline and its boundary -/

/-- The behaviour of the external completion API on one run: each
stage's call either returns a message content string or raises (a
transport/API exception). -/
structure Env where
  resp1 : Except String String
  resp2 : Except String String
  resp3 : Except String String

/-- `fallback_tool_call_three_step(user, user_input, model)`.  The
returned database is threaded through even when the run raises, since
side effects already committed persist.  (Between steps 1 and 2 the
user's category list is read for the prompt; a read leaves the state
untouched and its content does not reach the return value.) -/
def fallback (env : Env) (u : User) (db : DB) : Except String Json × DB :=
  match env.resp1 with
  | .error e => (.error e, db)
  | .ok raw1 =>
    match stage1Decide raw1 with
    | .error e => (.error e, db)
    | .ok (.inl p) => (.ok p, db)
    | .ok (.inr _toolsNeeded) =>
      match env.resp2 with
      | .error e => (.error e, db)
      | .ok raw2 =>
        match stage2Decide raw2 with
        | .error e => (.error e, db)
        | .ok (.inl p) => (.ok p, db)
        | .ok (.inr tc) =>
          match executeBatch u tc db with
          | (.error e, db') => (.error e, db')
          | (.ok entries, db') =>
            match env.resp3 with
            | .error e => (.error e, db')
            | .ok raw3 => (.ok (assembleFinal raw3 entries), db')

/-- `get_ai_response(user, prompt)` (ai/services1.py, lines 279-290):
runs the pipeline and converts any exception into the error payload. -/
def getAiResponse (env : Env) (u : User) (db : DB) : Json × DB :=
  match fallback env u db with
  | (.ok r, db') => (r, db')
  | (.error e, db') =>
      (.obj [("user_message", .str ("Error: " ++ e)),
             ("details", .arr []),
             ("tool_results", .arr [])], db')

/-! ## Concrete fixtures used by witnesses and counterexamples -/

def dbEmpty : DB := { tasks := [], cats := [], nextTaskId := 1 }

/-- A pending task of user 1 due 2025-01-10, in category 7. -/
def taskA : TaskRow :=
  { id := 1, user := 1, title := "t", description := none, dueDate := some { year := 2025, month := 1, day := 10 }, startTime := none, endTime := none, categoryId := some 7, status := "pending", priority := 1 }

/-- One task of user 1; category 7 belongs to user 2. -/
def dbA : DB :=
  { tasks := [taskA], cats := [{ id := 7, user := 2, name := "SECRET-X" }], nextTaskId := 2 }

/-- Same as `dbA` except user 2's category has a different name. -/
def dbB : DB :=
  { tasks := [taskA], cats := [{ id := 7, user := 2, name := "SECRET-Y" }], nextTaskId := 2 }

/-- A run whose stage-1 response selects `create_task` and whose
stage-2 response is not JSON. -/
def envParseFail : Env :=
  { resp1 := .ok "\x7b\"tool\": \"create_task\"\x7d", resp2 := .ok "plain nonsense", resp3 := .ok "x" }

/-- A run whose stage-1 response is the empty string. -/
def envEmptyResp : Env := { resp1 := .ok "", resp2 := .ok "x", resp3 := .ok "x" }

/-- A run whose stage-1 response names no tool. -/
def envNullTool : Env :=
  { resp1 := .ok "\x7b\"tools\": [\x7b\"tool\": null\x7d]\x7d", resp2 := .ok "x", resp3 := .ok "x" }

/-- A run whose stage-1 response parses to `[1, 2]`: the head `1` makes
`"tools" in tool_selection` raise `TypeError`. -/
def envListResp : Env := { resp1 := .ok "[1, 2]", resp2 := .ok "x", resp3 := .ok "x" }

/-! ## C1 -/

/-- C1 counterexample: with one pending task of user 1 in the store and
the filter set `{status: "pending"}` matching exactly that task,
`delete_task_without_id` returns the store unchanged — the matching row
is not removed, refuting "removes from the store every Task row owned
by that user that matches the filters". -/
theorem C1_counterexample :
    searchTasksSvc 1 [("status", Json.str "pending")] dbA = .ok [taskA] ∧
    (deleteTaskWithoutId 1 [("status", Json.str "pending")] dbA).2 = dbA ∧
    taskA ∈ dbA.tasks :=
  ⟨rfl, rfl, by simp [dbA]⟩

/-- C1 (amended): `delete_task_without_id` never deletes: on every
input it returns the database unchanged (its non-empty-match payload is
a `confirm_delete` listing); and the services1 orchestrator cannot
dispatch it at all — `execute_tool_call` answers with the unknown-tool
message, also leaving the database unchanged. -/
theorem C1_delete_by_filter_is_confirm_only (u : User)
    (args : List (String × Json)) (db : DB) :
    (deleteTaskWithoutId u args db).2 = db ∧
    executeToolCall u (.str "delete_task_without_id") (.obj args) db =
      .ok (.obj [("user_message", .str "Unknown tool function: delete_task_without_id"),
                 ("tool_result", .null)], db) := by
  constructor
  · unfold deleteTaskWithoutId
    split
    · rfl
    · split <;> rfl
  · rfl

/-! ## C2 -/

/-- C2: in any run that reaches stage 2 (stage 1 produced a non-empty
tool list) and whose stage-2 response contains no valid JSON, the
pipeline returns the fixed "Failed to parse tool arguments" message
with an empty `tool_results` list and the database is exactly as it
was: no Task or Category row is touched. -/
theorem C2_stage2_parse_failure_is_terminal_and_pure (env : Env) (u : User)
    (db : DB) (r1 r2 : String) (ts : List Json)
    (h1 : env.resp1 = .ok r1) (h2 : stage1Decide r1 = .ok (.inr ts))
    (h3 : env.resp2 = .ok r2) (h4 : extractJsonLike r2 = none) :
    fallback env u db =
      (.ok (.obj [("user_message", .str "Failed to parse tool arguments"),
                  ("tool_results", .arr [])]), db) := by
  simp only [fallback, h1, h2, h3, stage2Decide, h4, failedParsePayload]

/-- C2 witness: a concrete run hitting the stage-2 parse failure. -/
theorem C2_witness :
    fallback envParseFail 1 dbA =
      (.ok (.obj [("user_message", .str "Failed to parse tool arguments"),
                  ("tool_results", .arr [])]), dbA) :=
  C2_stage2_parse_failure_is_terminal_and_pure envParseFail 1 dbA
    "\x7b\"tool\": \"create_task\"\x7d" "plain nonsense" [.str "create_task"]
    rfl rfl rfl rfl

/-! ## C3 -/

/-- Every early return of `stage1OfJson` is
`{"user_message": ..., "tool_results": []}`. -/
theorem stage1OfJson_inl_fields (d : Json) (p : Json)
    (h : stage1OfJson d = .ok (.inl p)) :
    ∃ um, p = .obj [("user_message", um), ("tool_results", .arr [])] := by
  cases d <;> unfold stage1OfJson at h <;>
    (try cases h) <;> repeat' split at h
  all_goals simp only [noToolsPayload, Except.ok.injEq, Sum.inl.injEq,
    reduceCtorEq] at h
  all_goals exact ⟨_, h.symm⟩

/-- Every stage-1 early return is `{"user_message": ..., "tool_results": []}`. -/
theorem stage1Decide_inl_fields (raw : String) (p : Json)
    (h : stage1Decide raw = .ok (.inl p)) :
    ∃ um, p = .obj [("user_message", um), ("tool_results", .arr [])] := by
  unfold stage1Decide at h
  split at h
  · simp only [noToolsPayload, Except.ok.injEq, Sum.inl.injEq] at h
    exact ⟨_, h.symm⟩
  · split at h
    · simp only [noToolsPayload, Except.ok.injEq, Sum.inl.injEq] at h
      exact ⟨_, h.symm⟩
    · exact stage1OfJson_inl_fields _ _ h

/-- C3 counterexample: (1) when the stage-1 model response is the empty
string (which contains no valid JSON), the pipeline returns it
verbatim, so `user_message` is empty — refuting the claimed
non-emptiness; (2) when the stage-1 JSON names no tool, the returned
`user_message` is a fixed fallback sentence, not the model's raw
text. -/
theorem C3_counterexample :
    (fallback envEmptyResp 1 dbEmpty =
      (.ok (.obj [("user_message", .str ""), ("tool_results", .arr [])]), dbEmpty)) ∧
    (fallback envNullTool 1 dbEmpty =
      (.ok (.obj [("user_message", .str "No tools needed, but here's the response."),
                  ("tool_results", .arr [])]), dbEmpty)) ∧
    "No tools needed, but here's the response." ≠
      "\x7b\"tools\": [\x7b\"tool\": null\x7d]\x7d" :=
  ⟨rfl, rfl, by decide⟩

/-- C3 (amended): a stage-1 response with no valid JSON makes the
pipeline return the raw text (possibly empty) as `user_message` with an
empty `tool_results` list; any other stage-1 early exit (a JSON naming
no tool) returns the JSON's own `user_message` field or a fixed
fallback sentence — not the raw text — again with `tool_results: []`.
In both cases the returned database is the input database: no write
occurred. -/
theorem C3_stage1_early_exit_pure (env : Env) (u : User) (db : DB) (r1 : String)
    (h1 : env.resp1 = .ok r1) :
    (extractJsonLike r1 = none →
      fallback env u db =
        (.ok (.obj [("user_message", .str r1), ("tool_results", .arr [])]), db)) ∧
    (∀ p, stage1Decide r1 = .ok (.inl p) →
      fallback env u db = (.ok p, db) ∧
      ∃ um, p = .obj [("user_message", um), ("tool_results", .arr [])]) := by
  constructor
  · intro h
    simp only [fallback, h1, stage1Decide, h, noToolsPayload]
  · intro p hp
    exact ⟨by simp only [fallback, h1, hp], stage1Decide_inl_fields _ _ hp⟩

/-- C3 witness: the amended theorem applied to a concrete no-JSON run
and a concrete no-tool run. -/
theorem C3_witness :
    (fallback envEmptyResp 1 dbA =
      (.ok (.obj [("user_message", .str ""), ("tool_results", .arr [])]), dbA)) ∧
    (fallback envNullTool 1 dbA =
      (.ok (.obj [("user_message", .str "No tools needed, but here's the response."),
                  ("tool_results", .arr [])]), dbA)) :=
  ⟨(C3_stage1_early_exit_pure envEmptyResp 1 dbA "" rfl).1 rfl,
   ((C3_stage1_early_exit_pure envNullTool 1 dbA
      "\x7b\"tools\": [\x7b\"tool\": null\x7d]\x7d" rfl).2 _ rfl).1⟩

/-! ## C5 -/

/-- C5 counterexample: two refutations of "every status outside
{0, 1, 2} returns the invalid_status error with no update".  The JSON
value `true` is outside the set, yet Python's `True == 1` makes it a
key of the status mapping: the call reports success and rewrites the
task's status to `in_progress`.  And the list `[1]` is outside the
set, yet the membership test hashes it and raises `TypeError` before
the invalid-status branch: the blanket handler returns the generic
payload whose error code is the exception text, not `invalid_status`
(here too no row changes). -/
theorem C5_counterexample :
    ((setTaskStatus 1 [("status", Json.bool true)] dbA).1 =
      .obj [("status", .str "success"),
            ("message", .str ("Updated 1 task(s) to status " ++ sq ++
              "in_progress" ++ sq ++ "."))] ∧
     (setTaskStatus 1 [("status", Json.bool true)] dbA).2 ≠ dbA) ∧
    setTaskStatus 1 [("status", Json.arr [Json.num 1])] dbA =
      (.obj [("status", .str "error"),
             ("message", .str "An error occurred while updating task status."),
             ("error", .str ("unhashable type: " ++ sq ++ "list" ++ sq))], dbA) :=
  ⟨⟨rfl, by decide⟩, rfl⟩

/-- C5 (amended): popping an out-of-range `status` leaves every Task
row unchanged, but the payload depends on hashability: a hashable
value not Python-equal to 0, 1 or 2 (booleans count as 1/0, so
strings, `None` and out-of-range integers qualify) gets the
`invalid_status` error payload, while an unhashable value (a list or
dict) raises `TypeError` at the membership test, which the blanket
handler returns as the generic payload carrying `str(e)` — not
`invalid_status`. -/
theorem C5_invalid_status_no_update (u : User) (args : List (String × Json))
    (db : DB) (s : Json) (h1 : Json.getKey args "status" = some s) :
    (unhashableMsg s = none → statusKey s = none →
      setTaskStatus u args db =
        (.obj [("status", .str "error"),
               ("message", .str ("Invalid status " ++ sq ++ pyStr s ++ sq ++
                 ". Valid options are: 0=pending, 1=in_progress, 2=completed")),
               ("error", .str "invalid_status")], db)) ∧
    (∀ m, unhashableMsg s = some m →
      setTaskStatus u args db = (genericStatusPayload m, db)) := by
  constructor
  · intro hu h2
    simp only [setTaskStatus, h1, hu, h2]
  · intro m hu
    simp only [setTaskStatus, h1, hu]

/-- C5 witness: the string `"5"` is hashable and out of range, the
list `[1]` unhashable. -/
theorem C5_witness :
    (unhashableMsg (Json.str "5") = none ∧
     statusKey (Json.str "5") = none ∧
     setTaskStatus 1 [("status", Json.str "5")] dbA =
       (.obj [("status", .str "error"),
              ("message", .str ("Invalid status " ++ sq ++ "5" ++ sq ++
                ". Valid options are: 0=pending, 1=in_progress, 2=completed")),
              ("error", .str "invalid_status")], dbA)) ∧
    setTaskStatus 1 [("status", Json.arr [Json.num 1])] dbA =
      (genericStatusPayload ("unhashable type: " ++ sq ++ "list" ++ sq), dbA) :=
  ⟨⟨rfl, rfl,
    (C5_invalid_status_no_update 1 [("status", Json.str "5")] dbA (Json.str "5")
      rfl).1 rfl rfl⟩,
   (C5_invalid_status_no_update 1 [("status", Json.arr [Json.num 1])] dbA
      (Json.arr [Json.num 1]) rfl).2
     ("unhashable type: " ++ sq ++ "list" ++ sq) rfl⟩

/-! ## C6 -/

/-- Every stage-2 early return is one of the two fixed payloads. -/
theorem stage2OfJson_inl_shape (d : Json) (p : Json)
    (h : stage2OfJson d = .ok (.inl p)) :
    p = failedParsePayload ∨ p = noToolCallsPayload := by
  cases d with
  | obj o =>
      simp only [stage2OfJson] at h
      split at h
      · injection h with h; injection h with h; exact Or.inr h.symm
      · injection h with h; exact Sum.noConfusion h
  | null => exact Except.noConfusion h
  | bool b => exact Except.noConfusion h
  | num n => exact Except.noConfusion h
  | str s => exact Except.noConfusion h
  | arr l => exact Except.noConfusion h

/-- Every stage-2 early return is one of the two fixed payloads. -/
theorem stage2Decide_inl_shape (raw : String) (p : Json)
    (h : stage2Decide raw = .ok (.inl p)) :
    p = failedParsePayload ∨ p = noToolCallsPayload := by
  unfold stage2Decide at h
  split at h
  · exact Or.inl (by injection h with h; injection h with h; exact h.symm)
  · split at h
    · exact Or.inl (by injection h with h; injection h with h; exact h.symm)
    · exact stage2OfJson_inl_shape _ _ h

/-- The assembled final value always carries the three keys. -/
theorem assembleFinal_fields (raw3 : String) (entries : List Json) :
    ∃ um dv, assembleFinal raw3 entries =
      .obj [("user_message", um), ("details", dv), ("tool_results", .arr entries)] := by
  unfold assembleFinal
  split
  · exact ⟨_, _, rfl⟩
  · exact ⟨_, _, rfl⟩

/-- Every `ok` value of the pipeline is a dict with `user_message` and
`tool_results`. -/
theorem fallback_ok_fields (env : Env) (u : User) (db : DB) (r : Json)
    (db' : DB) (h : fallback env u db = (.ok r, db')) :
    ∃ o, r = .obj o ∧ (Json.getKey o "user_message").isSome ∧
      (Json.getKey o "tool_results").isSome := by
  unfold fallback at h
  rcases he1 : env.resp1 with e1 | raw1 <;> simp only [he1] at h
  · simp at h
  · rcases hs1 : stage1Decide raw1 with e | s <;> simp only [hs1] at h
    · simp at h
    · rcases s with p | ts
      · simp only [Prod.mk.injEq, Except.ok.injEq] at h
        obtain ⟨hr, _⟩ := h
        obtain ⟨um, hp⟩ := stage1Decide_inl_fields _ _ hs1
        subst hr; subst hp
        exact ⟨_, rfl, by simp [Json.getKey], by simp [Json.getKey]⟩
      · rcases he2 : env.resp2 with e2 | raw2 <;> simp only [he2] at h
        · simp at h
        · rcases hs2 : stage2Decide raw2 with e | s2 <;> simp only [hs2] at h
          · simp at h
          · rcases s2 with p | tc
            · simp only [Prod.mk.injEq, Except.ok.injEq] at h
              obtain ⟨hr, _⟩ := h
              rcases stage2Decide_inl_shape _ _ hs2 with hp | hp <;>
                subst hr <;> subst hp <;>
                exact ⟨_, rfl,
                  by simp [failedParsePayload, noToolCallsPayload, Json.getKey],
                  by simp [failedParsePayload, noToolCallsPayload, Json.getKey]⟩
            · rcases hb : executeBatch u tc db with ⟨res, db''⟩
              simp only [hb] at h
              rcases res with e | entries
              · simp at h
              · rcases he3 : env.resp3 with e3 | raw3 <;> simp only [he3] at h
                · simp at h
                · simp only [Prod.mk.injEq, Except.ok.injEq] at h
                  obtain ⟨hr, _⟩ := h
                  obtain ⟨um, dv, hp⟩ := assembleFinal_fields raw3 entries
                  rw [hp] at hr
                  subst hr
                  exact ⟨_, rfl, by simp [Json.getKey], by simp [Json.getKey]⟩

/-- C6 counterexample: the stage-2 parse-failure return of a concrete
run has no `details` key at all, and a concrete completed run whose
summarization response carries `"details": "oops"` returns that string
(не a list of strings) under `details` — refuting "the `details` key is
present as a list of strings on every return path". -/
theorem C6_counterexample :
    (fallback envParseFail 1 dbEmpty =
      (.ok (.obj [("user_message", .str "Failed to parse tool arguments"),
                  ("tool_results", .arr [])]), dbEmpty)) ∧
    Json.getKey [("user_message", Json.str "Failed to parse tool arguments"),
                 ("tool_results", Json.arr [])] "details" = none ∧
    (fallback { resp1 := .ok "\x7b\"tool\": \"create_task\"\x7d",
                resp2 := .ok "\x7b\"tool_calls\": [\x7b\"tool\": null\x7d]\x7d",
                resp3 := .ok "\x7b\"user_message\": \"ok\", \"details\": \"oops\"\x7d" }
        1 dbEmpty =
      (.ok (.obj [("user_message", .str "ok"), ("details", .str "oops"),
                  ("tool_results", .arr [])]), dbEmpty)) :=
  ⟨rfl, rfl, rfl⟩

/-- C6 (amended): every pipeline value is a dict with `user_message`
and `tool_results`; the `details` key, however, is present only on the
paths that reach the summarization step (holding whatever JSON the
model supplied, `[]` by default) and on the outer error payload — the
early-exit returns (stage-1 no-tool and stage-2 parse failure) omit
it. -/
theorem C6_payload_shape :
    (∀ env u db r db', fallback env u db = (.ok r, db') →
      ∃ o, r = .obj o ∧ (Json.getKey o "user_message").isSome ∧
        (Json.getKey o "tool_results").isSome) ∧
    (∀ raw p, stage1Decide raw = .ok (.inl p) →
      ∃ o, p = .obj o ∧ Json.getKey o "details" = none) ∧
    (∀ raw p, stage2Decide raw = .ok (.inl p) →
      ∃ o, p = .obj o ∧ Json.getKey o "details" = none) ∧
    (∀ raw3 entries, ∃ o, assembleFinal raw3 entries = .obj o ∧
      (Json.getKey o "details").isSome) ∧
    (∀ env u db e db', fallback env u db = (.error e, db') →
      ∃ o, (getAiResponse env u db).1 = .obj o ∧
        Json.getKey o "details" = some (.arr [])) := by
  refine ⟨fallback_ok_fields, ?_, ?_, ?_, ?_⟩
  · intro raw p h
    obtain ⟨um, hp⟩ := stage1Decide_inl_fields _ _ h
    exact ⟨_, hp, by simp [Json.getKey]⟩
  · intro raw p h
    rcases stage2Decide_inl_shape _ _ h with hp | hp <;> subst hp <;>
      exact ⟨_, rfl, by simp [failedParsePayload, noToolCallsPayload, Json.getKey]⟩
  · intro raw3 entries
    obtain ⟨um, dv, hp⟩ := assembleFinal_fields raw3 entries
    exact ⟨_, hp, by simp [Json.getKey]⟩
  · intro env u db e db' h
    have hg : (getAiResponse env u db).1 =
        .obj [("user_message", .str ("Error: " ++ e)), ("details", .arr []),
              ("tool_results", .arr [])] := by
      simp only [getAiResponse, h]
    exact ⟨_, hg, by simp [Json.getKey]⟩

/-- C6 witness: the amended theorem's clauses instantiated on the
concrete parse-failure run. -/
theorem C6_witness :
    ∃ o, (.obj [("user_message", Json.str "Failed to parse tool arguments"),
                ("tool_results", Json.arr [])] : Json) = .obj o ∧
      (Json.getKey o "user_message").isSome ∧
      (Json.getKey o "tool_results").isSome :=
  C6_payload_shape.1 envParseFail 1 dbEmpty _ dbEmpty rfl

/-! ## C7 -/

/-- C7: `get_ai_response` is total over every model behaviour — when
the pipeline finishes it passes its value through, and when any stage
raises (transport error or malformed output leading to a `TypeError`/
`KeyError`/`AttributeError`) the exception is caught and surfaced as
the `"Error: ..."` string inside the returned payload; nothing
propagates past the boundary. -/
theorem C7_get_ai_response_never_raises (env : Env) (u : User) (db : DB) :
    (∀ r db', fallback env u db = (.ok r, db') →
      getAiResponse env u db = (r, db')) ∧
    (∀ e db', fallback env u db = (.error e, db') →
      getAiResponse env u db =
        (.obj [("user_message", .str ("Error: " ++ e)),
               ("details", .arr []),
               ("tool_results", .arr [])], db')) := by
  constructor
  · intro r db' h
    simp only [getAiResponse, h]
  · intro e db' h
    simp only [getAiResponse, h]

/-- C7 witness: a stage-1 response parsing to `[1, 2]` makes the
pipeline raise `TypeError` internally; the boundary converts it. -/
theorem C7_witness :
    getAiResponse envListResp 1 dbEmpty =
      (.obj [("user_message", .str ("Error: " ++ "TypeError: argument is not iterable")),
             ("details", .arr []),
             ("tool_results", .arr [])], dbEmpty) :=
  (C7_get_ai_response_never_raises envListResp 1 dbEmpty).2
    "TypeError: argument is not iterable" dbEmpty rfl

/-! ## C4 -/

/-- Executing a batch decomposes over appending: a prefix of dict
entries never aborts, its entries are produced, its side effects are
kept, and the rest of the batch runs from the resulting state. -/
theorem executeCalls_append (u : User) (L1 L2 : List Json) (db : DB)
    (hobj : ∀ c ∈ L1, ∃ o, c = Json.obj o) :
    ∃ e1 db1, executeCalls u L1 db = (.ok e1, db1) ∧
      executeCalls u (L1 ++ L2) db =
        ((executeCalls u L2 db1).1.map (e1 ++ ·),
         (executeCalls u L2 db1).2) := by
  induction L1 generalizing db with
  | nil =>
      refine ⟨[], db, rfl, ?_⟩
      show executeCalls u L2 db = _
      rcases hr : executeCalls u L2 db with ⟨res, db2⟩
      cases res <;> simp [hr, Except.map]
  | cons c rest ih =>
      obtain ⟨o, rfl⟩ := hobj c (List.mem_cons_self c rest)
      have hp : ∃ en db₁, processCall u (.obj o) db = .ok (en, db₁) := by
        simp only [processCall]
        by_cases hc : (!((Json.getKey o "tool").getD Json.null).truthy) = true
        · rw [if_pos hc]; exact ⟨none, db, rfl⟩
        · rw [if_neg hc]
          rcases hec : executeToolCall u ((Json.getKey o "tool").getD .null)
              ((Json.getKey o "args").getD (.obj [])) db with e | ⟨r, db'⟩ <;>
            simp only [hec] <;> exact ⟨some _, _, rfl⟩
      obtain ⟨en, db₁, hp⟩ := hp
      obtain ⟨e1, db1, h1, h2⟩ :=
        ih db₁ (fun c hc => hobj c (List.mem_cons_of_mem _ hc))
      cases en with
      | none =>
          refine ⟨e1, db1, ?_, ?_⟩
          · show executeCalls u (Json.obj o :: rest) db = _
            simp only [executeCalls, hp, h1]
          · show executeCalls u (Json.obj o :: (rest ++ L2)) db = _
            simp only [executeCalls, hp, h2]
            rcases hr : executeCalls u L2 db1 with ⟨res, db2⟩
            cases res <;> simp [Except.map]
      | some x =>
          refine ⟨x :: e1, db1, ?_, ?_⟩
          · show executeCalls u (Json.obj o :: rest) db = _
            simp only [executeCalls, hp, h1]
          · show executeCalls u (Json.obj o :: (rest ++ L2)) db = _
            simp only [executeCalls, hp, h2]
            rcases hr : executeCalls u L2 db1 with ⟨res, db2⟩
            cases res <;> simp [Except.map]

/-- C4 counterexample: the extracted pair `{"tool": null, "args": {}}`
is a `{tool, args}` pair, yet it produces no entry at all in
`tool_results` (the loop `continue`s on a falsy tool name), refuting
"each pair produces its own entry". -/
theorem C4_counterexample :
    executeBatch 1 (.arr [.obj [("tool", Json.null), ("args", .obj [])]])
      dbEmpty = (.ok [], dbEmpty) := rfl

/-- C4 (amended): batch execution isolates failures per call for the
pairs that are dicts with a truthy tool name: such a pair contributes
exactly one entry — a `result` entry on success (unknown tool names
included, whose unknown-tool answer is itself such a result), or an
`error` entry holding `str(e)` with that call's state change discarded —
and a prefix of such pairs never aborts, blocks or rolls back the rest
of the batch: its entries and side effects persist and the remaining
calls run from the resulting state.  A pair with a falsy (`null`,
missing, `0`, `""`, `false`) tool name is skipped and contributes no
entry. -/
theorem C4_batch_error_isolation :
    (∀ (u : User) (db : DB) (L1 L2 : List Json),
       (∀ c ∈ L1, ∃ o, c = Json.obj o) →
       ∃ e1 db1, executeCalls u L1 db = (.ok e1, db1) ∧
         executeCalls u (L1 ++ L2) db =
           ((executeCalls u L2 db1).1.map (e1 ++ ·),
            (executeCalls u L2 db1).2)) ∧
    (∀ (u : User) (db : DB) (o : List (String × Json)) (tn ar : Json),
       tn = (Json.getKey o "tool").getD .null →
       ar = (Json.getKey o "args").getD (.obj []) →
       tn.truthy = true →
       (∀ r db', executeToolCall u tn ar db = .ok (r, db') →
          executeCalls u [.obj o] db =
            (.ok [.obj [("tool", tn), ("args", ar), ("result", r)]], db')) ∧
       (∀ e, executeToolCall u tn ar db = .error e →
          executeCalls u [.obj o] db =
            (.ok [.obj [("tool", tn), ("args", ar), ("error", .str e)]], db))) ∧
    (∀ (u : User) (db : DB) (o : List (String × Json)),
       ((Json.getKey o "tool").getD .null).truthy = false →
       executeCalls u [.obj o] db = (.ok [], db)) := by
  refine ⟨fun u db L1 L2 h => executeCalls_append u L1 L2 db h, ?_, ?_⟩
  · intro u db o tn ar htn har htr
    constructor
    · intro r db' hexec
      subst htn; subst har
      simp only [executeCalls, processCall, htr, hexec, Bool.not_true,
        Bool.false_eq_true, if_false]
    · intro e hexec
      subst htn; subst har
      simp only [executeCalls, processCall, htr, hexec, Bool.not_true,
        Bool.false_eq_true, if_false]
  · intro u db o hf
    simp only [executeCalls, processCall, hf, Bool.not_false, if_true]

/-- A well-formed create call and one whose `args` is a list (so the
`**args` unpacking raises `TypeError`). -/
def callCreate : Json :=
  .obj [("tool", .str "create_task"),
        ("args", .obj [("title", .str "A"), ("due_date", .str "2025-01-15")])]

def callBadArgs : Json :=
  .obj [("tool", .str "create_task"), ("args", .arr [])]

/-- C4 witness: the amended theorem applied to concrete batches — a
successful create as prefix, a `TypeError`-raising call in isolation,
and a falsy-tool skip. -/
theorem C4_witness :
    (∃ e1 db1, executeCalls 1 [callCreate] dbEmpty = (.ok e1, db1) ∧
       executeCalls 1 ([callCreate] ++ [callBadArgs]) dbEmpty =
         ((executeCalls 1 [callBadArgs] db1).1.map (e1 ++ ·),
          (executeCalls 1 [callBadArgs] db1).2)) ∧
    executeCalls 1 [callBadArgs] dbEmpty =
      (.ok [.obj [("tool", .str "create_task"), ("args", .arr []),
                  ("error", .str "argument after ** must be a mapping")]],
       dbEmpty) ∧
    executeCalls 1 [.obj [("tool", .bool false)]] dbEmpty =
      (.ok [], dbEmpty) :=
  ⟨C4_batch_error_isolation.1 1 dbEmpty [callCreate] [callBadArgs]
     (by intro c hc; rw [List.mem_singleton] at hc; exact ⟨_, hc⟩),
   (C4_batch_error_isolation.2.1 1 dbEmpty
      [("tool", .str "create_task"), ("args", .arr [])]
      (.str "create_task") (.arr []) rfl rfl rfl).2
      "argument after ** must be a mapping" rfl,
   C4_batch_error_isolation.2.2 1 dbEmpty [("tool", .bool false)] rfl⟩

/-! ## C9 -/

/-- Case analysis of a failing `Except` bind. -/
theorem except_bind_error {ε α β : Type} (a : Except ε α) (f : α → Except ε β)
    (p : ε) (h : (a >>= f) = .error p) :
    a = .error p ∨ ∃ x, a = .ok x ∧ f x = .error p := by
  cases a with
  | error e =>
      left
      have h' : (Except.error e : Except ε β) = .error p := h
      injection h' with h'
      rw [h']
  | ok x => right; exact ⟨x, rfl, h⟩

/-- Case analysis of a succeeding `Except` bind. -/
theorem except_bind_ok {ε α β : Type} (a : Except ε α) (f : α → Except ε β)
    (y : β) (h : (a >>= f) = .ok y) : ∃ x, a = .ok x ∧ f x = .ok y := by
  cases a with
  | error e => exact Except.noConfusion (show (Except.error e : Except ε β) = .ok y from h)
  | ok x => exact ⟨x, rfl, h⟩

/-- A structured error payload as the handlers return them. -/
def isErrorPayload (p : Json) : Prop :=
  ∃ o, p = .obj o ∧ Json.getKey o "status" = some (.str "error")

theorem isErrorPayload_invalidFormat (m : String) :
    isErrorPayload (invalidFormatPayload m) := ⟨_, rfl, rfl⟩

theorem isErrorPayload_generic (e : String) :
    isErrorPayload (genericCreatePayload e) := ⟨_, rfl, rfl⟩

theorem isErrorPayload_invalidCategory : isErrorPayload invalidCategoryPayload :=
  ⟨_, rfl, rfl⟩

theorem dueDateStep_error (args : List (String × Json)) (p : Json)
    (h : dueDateStep args = .error p) : isErrorPayload p := by
  unfold dueDateStep at h
  repeat' split at h
  all_goals cases h
  all_goals first
    | exact isErrorPayload_invalidFormat _
    | exact isErrorPayload_generic _

theorem startTimeStep_error (args : List (String × Json)) (p : Json)
    (h : startTimeStep args = .error p) : isErrorPayload p := by
  unfold startTimeStep at h
  repeat' split at h
  all_goals cases h
  all_goals first
    | exact isErrorPayload_invalidFormat _
    | exact isErrorPayload_generic _

theorem endTimeStep_error (args : List (String × Json)) (p : Json)
    (h : endTimeStep args = .error p) : isErrorPayload p := by
  unfold endTimeStep at h
  repeat' split at h
  all_goals cases h
  all_goals first
    | exact isErrorPayload_invalidFormat _
    | exact isErrorPayload_generic _

theorem catIdPrep_error (v : Json) (p : Json) (h : catIdPrep v = .error p) :
    isErrorPayload p := by
  unfold catIdPrep at h
  repeat' split at h
  all_goals cases h
  all_goals first
    | exact isErrorPayload_invalidFormat _
    | exact isErrorPayload_generic _

theorem categoryStep_error (u : User) (args : List (String × Json))
    (cats : List CatRow) (p : Json) (h : categoryStep u args cats = .error p) :
    isErrorPayload p := by
  unfold categoryStep at h
  repeat' split at h
  all_goals cases h
  all_goals first
    | exact isErrorPayload_generic _
    | exact isErrorPayload_invalidCategory
    | (apply catIdPrep_error; assumption)

theorem titleStep_error (args : List (String × Json)) (p : Json)
    (h : titleStep args = .error p) : isErrorPayload p := by
  unfold titleStep at h
  repeat' split at h
  all_goals cases h
  all_goals exact isErrorPayload_generic _

theorem priorityStep_error (args : List (String × Json)) (p : Json)
    (h : priorityStep args = .error p) : isErrorPayload p := by
  unfold priorityStep at h
  repeat' split at h
  all_goals cases h
  all_goals first
    | exact isErrorPayload_invalidFormat _
    | exact isErrorPayload_generic _

theorem rowStep_error (u : User) (args : List (String × Json))
    (due : Option Date) (startT endT : Option Time) (catId : Option Nat)
    (titleV : Json) (prio : Int) (p : Json)
    (h : rowStep u args due startT endT catId titleV prio = .error p) :
    isErrorPayload p := by
  unfold rowStep at h
  repeat' split at h
  all_goals cases h
  all_goals exact isErrorPayload_generic _

/-- A failed `create_task` build returns a payload with status
`error`. -/
theorem buildTask_error_status (u : User) (args : List (String × Json))
    (cats : List CatRow) (p : Json) (h : buildTask u args cats = .error p) :
    isErrorPayload p := by
  unfold buildTask at h
  rcases except_bind_error _ _ _ h with h | ⟨due, _, h⟩
  · exact dueDateStep_error _ _ h
  rcases except_bind_error _ _ _ h with h | ⟨st, _, h⟩
  · exact startTimeStep_error _ _ h
  rcases except_bind_error _ _ _ h with h | ⟨et, _, h⟩
  · exact endTimeStep_error _ _ h
  rcases except_bind_error _ _ _ h with h | ⟨cid, _, h⟩
  · exact categoryStep_error _ _ _ _ h
  rcases except_bind_error _ _ _ h with h | ⟨tv, _, h⟩
  · exact titleStep_error _ _ h
  rcases except_bind_error _ _ _ h with h | ⟨pr, _, h⟩
  · exact priorityStep_error _ _ h
  · exact rowStep_error _ _ _ _ _ _ _ _ _ h

/-- The row a successful build inserts carries the allocated key and
the calling user. -/
theorem buildTask_ok_row (u : User) (args : List (String × Json))
    (cats : List CatRow) (mk : Nat → TaskRow)
    (h : buildTask u args cats = .ok mk) :
    ∀ tid, (mk tid).id = tid ∧ (mk tid).user = u := by
  unfold buildTask at h
  obtain ⟨due, _, h⟩ := except_bind_ok _ _ _ h
  obtain ⟨st, _, h⟩ := except_bind_ok _ _ _ h
  obtain ⟨et, _, h⟩ := except_bind_ok _ _ _ h
  obtain ⟨cid, _, h⟩ := except_bind_ok _ _ _ h
  obtain ⟨tv, _, h⟩ := except_bind_ok _ _ _ h
  obtain ⟨pr, _, h⟩ := except_bind_ok _ _ _ h
  unfold rowStep at h
  split at h
  · cases h
  · split at h
    · cases h
    · injection h with h; subst h; exact fun tid => ⟨rfl, rfl⟩

/-- C9: `create_task` is not idempotent.  If a call with some argument
set succeeds, calling it again with the same arguments succeeds as well
and appends a second, distinct row (different primary key): after two
identical successful invocations the user's task count has grown by
exactly two — nothing deduplicates. -/
theorem C9_create_task_not_idempotent (u : User) (args : List (String × Json))
    (db : DB) (r1 : Json) (db1 : DB)
    (h : createTask u args db = (r1, db1))
    (hs : ∃ o, r1 = .obj o ∧ Json.getKey o "status" = some (.str "success")) :
    ∃ r2 db2, createTask u args db1 = (r2, db2) ∧
      (∃ o2, r2 = .obj o2 ∧ Json.getKey o2 "status" = some (.str "success")) ∧
      ∃ t1 t2, db2.tasks = db.tasks ++ [t1, t2] ∧ t1.id ≠ t2.id ∧
        t1.user = u ∧ t2.user = u ∧
        (tasksOf u db2).length = (tasksOf u db).length + 2 := by
  rcases hb : buildTask u args db.cats with p | mk
  · -- a failed build contradicts the success hypothesis
    simp only [createTask, hb] at h
    obtain ⟨o, ho, hst⟩ := hs
    obtain ⟨o', hp', hst'⟩ := buildTask_error_status u args db.cats p hb
    obtain ⟨hr1, _⟩ := Prod.mk.injEq .. |>.mp h
    rw [hr1, ho] at hp'
    cases hp'
    rw [hst] at hst'
    simp at hst'
  · simp only [createTask, hb] at h
    obtain ⟨hr1, hdb1⟩ := Prod.mk.injEq .. |>.mp h
    subst hdb1
    have hrow := buildTask_ok_row u args db.cats mk hb
    have h2 : createTask u args
        { db with tasks := db.tasks ++ [mk db.nextTaskId],
                  nextTaskId := db.nextTaskId + 1 } =
        (.obj [("status", .str "success"),
               ("message", .str ("Task " ++ sq ++ (mk (db.nextTaskId + 1)).title ++
                 sq ++ " created successfully."))],
         { db with tasks := (db.tasks ++ [mk db.nextTaskId]) ++ [mk (db.nextTaskId + 1)],
                   nextTaskId := db.nextTaskId + 1 + 1 }) := by
      simp only [createTask, hb]
    refine ⟨_, _, h2, ⟨_, rfl, rfl⟩,
      mk db.nextTaskId, mk (db.nextTaskId + 1), ?_, ?_, (hrow _).2, (hrow _).2, ?_⟩
    · simp
    · intro hid
      have hx1 := (hrow db.nextTaskId).1
      have hx2 := (hrow (db.nextTaskId + 1)).1
      rw [hid, hx2] at hx1
      omega
    · show (List.filter _ ((db.tasks ++ [mk db.nextTaskId]) ++ [mk (db.nextTaskId + 1)])).length = _
      have hu1 : ((mk db.nextTaskId).user == u) = true := by
        rw [(hrow db.nextTaskId).2]; simp
      have hu2 : ((mk (db.nextTaskId + 1)).user == u) = true := by
        rw [(hrow (db.nextTaskId + 1)).2]; simp
      simp [tasksOf, List.filter_append, hu1, hu2]

/-- C9 witness: creating the same task twice from the empty store. -/
theorem C9_witness :
    ∃ r2 db2, createTask 1 [("title", Json.str "X"), ("due_date", Json.str "2025-01-15")]
        (createTask 1 [("title", Json.str "X"), ("due_date", Json.str "2025-01-15")] dbEmpty).2
        = (r2, db2) ∧
      (∃ o2, r2 = .obj o2 ∧ Json.getKey o2 "status" = some (.str "success")) ∧
      ∃ t1 t2, db2.tasks = dbEmpty.tasks ++ [t1, t2] ∧ t1.id ≠ t2.id ∧
        t1.user = 1 ∧ t2.user = 1 ∧
        (tasksOf 1 db2).length = (tasksOf 1 dbEmpty).length + 2 :=
  C9_create_task_not_idempotent 1
    [("title", Json.str "X"), ("due_date", Json.str "2025-01-15")] dbEmpty
    _ _ rfl ⟨[("status", Json.str "success"),
              ("message", Json.str ("Task " ++ sq ++ "X" ++ sq ++
                " created successfully."))], by rfl, by rfl⟩

/-! ## C10 -/

/-- C10: calling `set_task_status` with an in-range `status` as the
only argument updates every task the user owns (an empty filter set
matches the whole user-scoped queryset), and a `due_date` filter string
that is not a valid ISO date is silently dropped, making the call
behave exactly as if the filter had not been given at all. -/
theorem C10_empty_filters_match_all (u : User) (db : DB) (n : Int)
    (sstr : String) (hn : statusKey (.num n) = some sstr) :
    (tasksOf u db = [] →
      setTaskStatus u [("status", .num n)] db =
        (.obj [("status", .str "success"),
               ("message", .str "No tasks found matching your criteria.")], db)) ∧
    (tasksOf u db ≠ [] →
      setTaskStatus u [("status", .num n)] db =
        (.obj [("status", .str "success"),
               ("message", .str ("Updated " ++ toString (tasksOf u db).length ++
                 " task(s) to status " ++ sq ++ sstr ++ sq ++ "."))],
         { db with tasks := db.tasks.map (fun t =>
             if t.user == u then { t with status := sstr } else t) })) ∧
    (∀ (sv : Json) (bad : String), parseIsoDate bad = none →
      setTaskStatus u [("status", sv), ("due_date", .str bad)] db =
        setTaskStatus u [("status", sv)] db) := by
  refine ⟨?_, ?_, ?_⟩
  · intro hempty
    simp only [setTaskStatus]
    rw [show Json.getKey [("status", Json.num n)] "status" = some (Json.num n) from rfl]
    simp only [show unhashableMsg (Json.num n) = none from rfl, hn]
    rw [show filtersPredE (Json.eraseKey [("status", Json.num n)] "status") =
          .ok (fun _ => true) from rfl]
    simp [List.filter_true, hempty]
  · intro hne
    simp only [setTaskStatus]
    rw [show Json.getKey [("status", Json.num n)] "status" = some (Json.num n) from rfl]
    simp only [show unhashableMsg (Json.num n) = none from rfl, hn]
    rw [show filtersPredE (Json.eraseKey [("status", Json.num n)] "status") =
          .ok (fun _ => true) from rfl]
    have hie : (tasksOf u db).isEmpty = false := by
      cases hl : tasksOf u db
      · exact absurd hl hne
      · rfl
    simp [List.filter_true, hie]
  · intro sv bad hbad
    have hpred1 : filtersPredE [("due_date", Json.str bad)] = .ok (fun _ => true) := by
      simp [filtersPredE, duePredE, rangePredE, Json.getKey, hbad]
    simp only [setTaskStatus]
    rw [show Json.getKey [("status", sv), ("due_date", Json.str bad)] "status" =
          some sv from rfl,
        show Json.getKey [("status", sv)] "status" = some sv from rfl,
        show Json.eraseKey [("status", sv), ("due_date", Json.str bad)] "status" =
          [("due_date", Json.str bad)] from rfl,
        show Json.eraseKey [("status", sv)] "status" =
          ([] : List (String × Json)) from rfl,
        hpred1,
        show filtersPredE ([] : List (String × Json)) = .ok (fun _ => true) from rfl]

/-- C10 witness: with status 2 (completed) and no filters every task of
user 1 is rewritten; an invalid date filter behaves as if absent. -/
theorem C10_witness :
    (setTaskStatus 1 [("status", Json.num 2)] dbA =
      (.obj [("status", .str "success"),
             ("message", .str ("Updated " ++ toString (tasksOf 1 dbA).length ++
               " task(s) to status " ++ sq ++ "completed" ++ sq ++ "."))],
       { dbA with tasks := dbA.tasks.map (fun t =>
           if t.user == 1 then { t with status := "completed" } else t) })) ∧
    (setTaskStatus 1 [("status", Json.num 1), ("due_date", Json.str "garbage")] dbA =
      setTaskStatus 1 [("status", Json.num 1)] dbA) :=
  ⟨(C10_empty_filters_match_all 1 dbA 2 "completed" rfl).2.1 (by decide),
   (C10_empty_filters_match_all 1 dbA 1 "in_progress" rfl).2.2
     (Json.num 1) "garbage" rfl⟩

/-! ## C8

The pipeline's reads and writes, relative to the running user.  Two
databases are related for user `u` when they agree on `u`'s task rows
up to the auto-assigned primary key and on the whole category table;
the simulation below shows a run returns the same payload on related
databases and keeps them related, while the preservation lemmas show a
run never touches another user's task rows nor any category row.  The
primary key must be erased because the id sequence is global: another
user's earlier activity shifts the ids a run allocates (without
affecting anything the run returns). -/

/-- The row with its auto-assigned primary key erased. -/
def rowShadow (t : TaskRow) : TaskRow := { t with id := 0 }

/-- Lists of rows equal up to primary keys. -/
def shadowRel (l1 l2 : List TaskRow) : Prop :=
  l1.map rowShadow = l2.map rowShadow

/-- Databases related for user `u`: same `u`-owned task rows up to ids,
same category table. -/
structure DBRel (u : User) (db1 db2 : DB) : Prop where
  tasks : shadowRel (tasksOf u db1) (tasksOf u db2)
  cats : db1.cats = db2.cats

theorem shadowRel_nil_left {l1 l2 : List TaskRow} (h : shadowRel l1 l2) :
    l1 = [] ↔ l2 = [] := by
  cases l1 <;> cases l2 <;> simp_all [shadowRel]

theorem shadowRel_length {l1 l2 : List TaskRow} (h : shadowRel l1 l2) :
    l1.length = l2.length := by
  have := congrArg List.length h
  simpa using this

theorem shadowRel_cons {a b : TaskRow} {l1 l2 : List TaskRow} :
    shadowRel (a :: l1) (b :: l2) ↔ rowShadow a = rowShadow b ∧ shadowRel l1 l2 := by
  simp [shadowRel]

/-- A predicate that does not look at the primary key. -/
def shadowInv (p : TaskRow → Bool) : Prop :=
  ∀ t, p (rowShadow t) = p t

theorem shadowInv_eq {p : TaskRow → Bool} (hp : shadowInv p) {a b : TaskRow}
    (hab : rowShadow a = rowShadow b) : p a = p b := by
  rw [← hp a, hab, hp b]

theorem duePredE_shadowInv (filters : List (String × Json))
    (p : TaskRow → Bool) (h : duePredE filters = .ok p) : shadowInv p := by
  unfold duePredE at h
  repeat' split at h
  all_goals cases h
  all_goals intro t
  all_goals rfl

theorem rangePredE_shadowInv (filters : List (String × Json))
    (p : TaskRow → Bool) (h : rangePredE filters = .ok p) : shadowInv p := by
  unfold rangePredE at h
  repeat' split at h
  all_goals cases h
  all_goals intro t
  all_goals rfl

/-- Every WHERE clause `filtersPredE` builds ignores the primary
key. -/
theorem filtersPredE_shadowInv (filters : List (String × Json))
    (p : TaskRow → Bool) (h : filtersPredE filters = .ok p) : shadowInv p := by
  unfold filtersPredE at h
  rcases hd : duePredE filters with e | pdue <;> rw [hd] at h
  · cases h
  rcases hr : rangePredE filters with e | prange <;> rw [hr] at h
  · cases h
  cases h
  intro t
  show (_ && pdue (rowShadow t) && prange (rowShadow t) && _) = _
  rw [duePredE_shadowInv filters pdue hd t, rangePredE_shadowInv filters prange hr t]
  rfl

theorem filter_shadowRel {p : TaskRow → Bool} (hp : shadowInv p)
    {l1 l2 : List TaskRow} (h : shadowRel l1 l2) :
    shadowRel (l1.filter p) (l2.filter p) := by
  induction l1 generalizing l2 with
  | nil => cases l2 with
    | nil => rfl
    | cons b l2 => simp [shadowRel] at h
  | cons a l1 ih =>
      cases l2 with
      | nil => simp [shadowRel] at h
      | cons b l2 =>
          obtain ⟨hab, hrest⟩ := shadowRel_cons.mp h
          rw [List.filter_cons, List.filter_cons, shadowInv_eq hp hab]
          by_cases hb : p b = true
          · simp only [hb, if_true]
            exact shadowRel_cons.mpr ⟨hab, ih hrest⟩
          · simp only [hb, if_false]
            exact ih hrest

theorem taskOrdLe_shadow (a b : TaskRow) :
    taskOrdLe (rowShadow a) (rowShadow b) = taskOrdLe a b := rfl

theorem insertTask_shadowRel {a b : TaskRow} (hab : rowShadow a = rowShadow b)
    {l1 l2 : List TaskRow} (h : shadowRel l1 l2) :
    shadowRel (insertTask a l1) (insertTask b l2) := by
  induction l1 generalizing l2 with
  | nil =>
      cases l2 with
      | nil => exact shadowRel_cons.mpr ⟨hab, rfl⟩
      | cons c l2 => simp [shadowRel] at h
  | cons c l1 ih =>
      cases l2 with
      | nil => simp [shadowRel] at h
      | cons d l2 =>
          obtain ⟨hcd, hrest⟩ := shadowRel_cons.mp h
          unfold insertTask
          have hle : taskOrdLe c a = taskOrdLe d b := by
            rw [← taskOrdLe_shadow c a, hcd, hab, taskOrdLe_shadow]
          rw [hle]
          by_cases hd : taskOrdLe d b = true
          · simp only [hd, if_true]
            exact shadowRel_cons.mpr ⟨hcd, ih hrest⟩
          · simp only [hd, if_false]
            exact shadowRel_cons.mpr ⟨hab, shadowRel_cons.mpr ⟨hcd, hrest⟩⟩

theorem orderTasks_shadowRel {l1 l2 : List TaskRow} (h : shadowRel l1 l2) :
    shadowRel (orderTasks l1) (orderTasks l2) := by
  suffices haux : ∀ (l1 l2 acc1 acc2 : List TaskRow), shadowRel l1 l2 →
      shadowRel acc1 acc2 →
      shadowRel (l1.foldl (fun acc t => insertTask t acc) acc1)
        (l2.foldl (fun acc t => insertTask t acc) acc2) from
    haux l1 l2 [] [] h rfl
  intro l1
  induction l1 with
  | nil =>
      intro l2 acc1 acc2 h hacc
      cases l2 with
      | nil => exact hacc
      | cons b l2 => simp [shadowRel] at h
  | cons a l1 ih =>
      intro l2 acc1 acc2 h hacc
      cases l2 with
      | nil => simp [shadowRel] at h
      | cons b l2 =>
          obtain ⟨hab, hrest⟩ := shadowRel_cons.mp h
          exact ih l2 _ _ hrest (insertTask_shadowRel hab hacc)

theorem shadowRel_append {a b c d : List TaskRow} (h1 : shadowRel a b)
    (h2 : shadowRel c d) : shadowRel (a ++ c) (b ++ d) := by
  unfold shadowRel at *
  rw [List.map_append, List.map_append, h1, h2]

/-- The row a successful build inserts depends on the allocated key
only through the `id` column itself. -/
theorem buildTask_ok_shadow (u : User) (args : List (String × Json))
    (cats : List CatRow) (mk : Nat → TaskRow)
    (h : buildTask u args cats = .ok mk) :
    ∀ t1 t2, rowShadow (mk t1) = rowShadow (mk t2) := by
  unfold buildTask at h
  obtain ⟨due, _, h⟩ := except_bind_ok _ _ _ h
  obtain ⟨st, _, h⟩ := except_bind_ok _ _ _ h
  obtain ⟨et, _, h⟩ := except_bind_ok _ _ _ h
  obtain ⟨cid, _, h⟩ := except_bind_ok _ _ _ h
  obtain ⟨tv, _, h⟩ := except_bind_ok _ _ _ h
  obtain ⟨pr, _, h⟩ := except_bind_ok _ _ _ h
  unfold rowStep at h
  split at h
  · cases h
  · split at h
    · cases h
    · injection h with h; subst h; exact fun t1 t2 => rfl

/-! Preservation: a handler run as `u` writes no other user's task rows
and no category rows. -/

theorem createTask_pres (u : User) (args : List (String × Json)) (db : DB) :
    (createTask u args db).2.cats = db.cats ∧
    ∀ v, v ≠ u → tasksOf v (createTask u args db).2 = tasksOf v db := by
  simp only [createTask]
  rcases hb : buildTask u args db.cats with p | mk <;> simp only [hb]
  · exact ⟨by trivial, fun _ _ => by trivial⟩
  · refine ⟨by trivial, fun v hv => ?_⟩
    show List.filter (fun t => t.user == v) (db.tasks ++ [mk db.nextTaskId]) = _
    rw [List.filter_append]
    have hu : ((mk db.nextTaskId).user == v) = false := by
      rw [(buildTask_ok_row u args db.cats mk hb db.nextTaskId).2]
      simp [Ne.symm hv]
    simp [hu, tasksOf]

/-- The UPDATE's row transformer touches only rows whose `user` column
is `u`: filtering on another user commutes it away. -/
theorem filter_user_map_update_ne (l : List TaskRow) (u v : User)
    (hvu : v ≠ u) (p : TaskRow → Bool) (sstr : String) :
    (l.map (fun t => if t.user == u && p t then { t with status := sstr } else t)).filter
      (fun t => t.user == v) = l.filter (fun t => t.user == v) := by
  induction l with
  | nil => rfl
  | cons t l ih =>
      have huser :
          ((if t.user == u && p t then { t with status := sstr } else t) : TaskRow).user
            = t.user := by
        split <;> rfl
      rw [List.map_cons, List.filter_cons, List.filter_cons, huser]
      by_cases htv : (t.user == v) = true
      · rw [if_pos htv, if_pos htv]
        have ht : t.user = v := by simpa using htv
        have htu : (t.user == u) = false := by simp [ht, hvu]
        have hg : (if t.user == u && p t then { t with status := sstr } else t) = t := by
          simp [htu]
        rw [hg, ih]
      · rw [if_neg htv, if_neg htv]
        exact ih

theorem setTaskStatus_pres (u : User) (args : List (String × Json)) (db : DB) :
    (setTaskStatus u args db).2.cats = db.cats ∧
    ∀ v, v ≠ u → tasksOf v (setTaskStatus u args db).2 = tasksOf v db := by
  simp only [setTaskStatus]
  rcases hg : Json.getKey args "status" with _ | sv <;> simp only [hg]
  · exact ⟨by trivial, fun _ _ => by trivial⟩
  · rcases hum : unhashableMsg sv with _ | m <;> simp only [hum]
    · rcases hk : statusKey sv with _ | sstr <;> simp only [hk]
      · exact ⟨by trivial, fun _ _ => by trivial⟩
      · rcases hfp : filtersPredE (Json.eraseKey args "status") with e | p <;>
          simp only [hfp]
        · exact ⟨by trivial, fun _ _ => by trivial⟩
        · by_cases hie : ((tasksOf u db).filter p).isEmpty = true <;>
            simp only [hie, if_true, if_false, Bool.false_eq_true]
          · exact ⟨by trivial, fun _ _ => by trivial⟩
          · exact ⟨by trivial, fun v hv => filter_user_map_update_ne db.tasks u v hv p sstr⟩
    · exact ⟨by trivial, fun _ _ => by trivial⟩

theorem executeToolCall_pres (u : User) (tn ar : Json) (db : DB) :
    ∀ res, executeToolCall u tn ar db = .ok res →
      res.2.cats = db.cats ∧ ∀ v, v ≠ u → tasksOf v res.2 = tasksOf v db := by
  intro res h
  unfold executeToolCall at h
  repeat' split at h
  all_goals (try cases h)
  all_goals try exact ⟨by trivial, fun _ _ => by trivial⟩
  · exact createTask_pres u _ db
  · exact setTaskStatus_pres u _ db

theorem processCall_pres (u : User) (c : Json) (db : DB) :
    ∀ res, processCall u c db = .ok res →
      res.2.cats = db.cats ∧ ∀ v, v ≠ u → tasksOf v res.2 = tasksOf v db := by
  intro res h
  unfold processCall at h
  split at h
  · split at h
    · cases h
      exact ⟨by trivial, fun _ _ => by trivial⟩
    · split at h
      next result db0 hex =>
        cases h
        exact executeToolCall_pres u _ _ db (result, db0) hex
      next e hex =>
        cases h
        exact ⟨by trivial, fun _ _ => by trivial⟩
  · cases h

theorem executeCalls_pres (u : User) : ∀ (calls : List Json) (db : DB),
    (executeCalls u calls db).2.cats = db.cats ∧
    ∀ v, v ≠ u → tasksOf v (executeCalls u calls db).2 = tasksOf v db := by
  intro calls
  induction calls with
  | nil => exact fun db => ⟨by trivial, fun _ _ => by trivial⟩
  | cons c rest ih =>
      intro db
      simp only [executeCalls]
      rcases hp : processCall u c db with e | ⟨en, db1⟩ <;> simp only [hp]
      · exact ⟨by trivial, fun _ _ => by trivial⟩
      · obtain ⟨hc1, ht1⟩ := processCall_pres u c db (en, db1) hp
        obtain ⟨hc2, ht2⟩ := ih db1
        rcases hr : executeCalls u rest db1 with ⟨e | l, db2⟩ <;>
          simp only [hr] <;> rw [hr] at hc2 ht2
        · exact ⟨hc2.trans hc1, fun v hv => (ht2 v hv).trans (ht1 v hv)⟩
        · exact ⟨hc2.trans hc1, fun v hv => (ht2 v hv).trans (ht1 v hv)⟩

theorem executeBatch_pres (u : User) (tc : Json) (db : DB) :
    (executeBatch u tc db).2.cats = db.cats ∧
    ∀ v, v ≠ u → tasksOf v (executeBatch u tc db).2 = tasksOf v db := by
  unfold executeBatch
  rcases tc with _ | _ | _ | _ | calls | _
  all_goals try exact ⟨by trivial, fun _ _ => by trivial⟩
  exact executeCalls_pres u calls db

theorem fallback_pres (env : Env) (u : User) (db : DB) :
    (fallback env u db).2.cats = db.cats ∧
    ∀ v, v ≠ u → tasksOf v (fallback env u db).2 = tasksOf v db := by
  unfold fallback
  rcases h1 : env.resp1 with e | raw1 <;> simp only [h1]
  · exact ⟨by trivial, fun _ _ => by trivial⟩
  rcases h2 : stage1Decide raw1 with e | p | tools <;> simp only [h2]
  · exact ⟨by trivial, fun _ _ => by trivial⟩
  · exact ⟨by trivial, fun _ _ => by trivial⟩
  rcases h3 : env.resp2 with e | raw2 <;> simp only [h3]
  · exact ⟨by trivial, fun _ _ => by trivial⟩
  rcases h4 : stage2Decide raw2 with e | p | tc <;> simp only [h4]
  · exact ⟨by trivial, fun _ _ => by trivial⟩
  · exact ⟨by trivial, fun _ _ => by trivial⟩
  obtain ⟨hc, ht⟩ := executeBatch_pres u tc db
  rcases hb : executeBatch u tc db with ⟨e | entries, db1⟩ <;>
    simp only [hb] <;> rw [hb] at hc ht
  · exact ⟨hc, ht⟩
  rcases h5 : env.resp3 with e | raw3 <;> simp only [h5]
  · exact ⟨hc, ht⟩
  · exact ⟨hc, ht⟩

theorem getAiResponse_pres (env : Env) (u : User) (db : DB) :
    (getAiResponse env u db).2.cats = db.cats ∧
    ∀ v, v ≠ u → tasksOf v (getAiResponse env u db).2 = tasksOf v db := by
  unfold getAiResponse
  obtain ⟨hc, ht⟩ := fallback_pres env u db
  rcases hb : fallback env u db with ⟨e | r, db1⟩ <;>
    simp only [hb] <;> rw [hb] at hc ht
  · exact ⟨hc, ht⟩
  · exact ⟨hc, ht⟩

/-! Simulation: on databases related for `u`, a handler returns the
same payload and keeps the databases related. -/

/-- Relating two fallible task-list results: same error or related
rows. -/
def relL (x y : Except String (List TaskRow)) : Prop :=
  match x, y with
  | .ok r1, .ok r2 => shadowRel r1 r2
  | .error e1, .error e2 => e1 = e2
  | _, _ => False

theorem searchTasks_rel (u : User) (filters : List (String × Json))
    (db1 db2 : DB) (h : DBRel u db1 db2) :
    relL (searchTasks u filters db1) (searchTasks u filters db2) := by
  unfold searchTasks
  by_cases hf : filters.isEmpty = true
  · simp only [if_pos hf]
    exact h.tasks
  · simp only [if_neg hf]
    rcases hfp : filtersPredE filters with e | p <;> simp only [hfp]
    · exact rfl
    · exact orderTasks_shadowRel
        (filter_shadowRel (filtersPredE_shadowInv filters p hfp) h.tasks)

theorem getCatById_congr (db1 db2 : DB) (cid : Nat) (h : db1.cats = db2.cats) :
    getCatById db1 cid = getCatById db2 cid := by
  unfold getCatById
  rw [h]

theorem catLabel_rel (db1 db2 : DB) (hc : db1.cats = db2.cats)
    (a b : TaskRow) (hab : rowShadow a = rowShadow b) :
    catLabel db1 a = catLabel db2 b := by
  have h0 := congrArg TaskRow.categoryId hab
  have hcat : a.categoryId = b.categoryId := h0
  unfold catLabel
  rw [hcat]
  rcases hbc : b.categoryId with _ | cid <;> simp only [hbc]
  rw [getCatById_congr db1 db2 cid hc]

theorem dueLabel_rel (a b : TaskRow) (hab : rowShadow a = rowShadow b) :
    dueLabel a = dueLabel b := by
  have h0 := congrArg TaskRow.dueDate hab
  have hd : a.dueDate = b.dueDate := h0
  unfold dueLabel
  rw [hd]

theorem taskLine_rel (db1 db2 : DB) (hc : db1.cats = db2.cats)
    (a b : TaskRow) (hab : rowShadow a = rowShadow b) :
    taskLine db1 a = taskLine db2 b := by
  have h0 := congrArg TaskRow.title hab
  have ht : a.title = b.title := h0
  unfold taskLine
  rw [catLabel_rel db1 db2 hc a b hab, ht, dueLabel_rel a b hab]

theorem generateMessageAux_rel (db1 db2 : DB) (hc : db1.cats = db2.cats) :
    ∀ (idx : Nat) (l1 l2 : List TaskRow), shadowRel l1 l2 →
      generateMessageAux db1 idx l1 = generateMessageAux db2 idx l2 := by
  intro idx l1
  induction l1 generalizing idx with
  | nil =>
      intro l2 h
      cases l2 with
      | nil => rfl
      | cons b l2 => simp [shadowRel] at h
  | cons a l1 ih =>
      intro l2 h
      cases l2 with
      | nil => simp [shadowRel] at h
      | cons b l2 =>
          obtain ⟨hab, hrest⟩ := shadowRel_cons.mp h
          simp only [generateMessageAux]
          rw [taskLine_rel db1 db2 hc a b hab, ih (idx + 1) l2 hrest]

theorem generateMessage_rel (db1 db2 : DB) (hc : db1.cats = db2.cats)
    (l1 l2 : List TaskRow) (h : shadowRel l1 l2) :
    generateMessage db1 l1 = generateMessage db2 l2 := by
  cases l1 with
  | nil =>
      cases l2 with
      | nil => rfl
      | cons b l2 => simp [shadowRel] at h
  | cons a l1 =>
      cases l2 with
      | nil => simp [shadowRel] at h
      | cons b l2 =>
          obtain ⟨hab, hrest⟩ := shadowRel_cons.mp h
          cases l1 with
          | nil =>
              cases l2 with
              | nil =>
                  have h0 := congrArg TaskRow.title hab
                  have ht : a.title = b.title := h0
                  show (catLabel db1 a).map _ = (catLabel db2 b).map _
                  rw [catLabel_rel db1 db2 hc a b hab, ht, dueLabel_rel a b hab]
              | cons b2 l2 => simp [shadowRel] at hrest
          | cons a2 l1 =>
              cases l2 with
              | nil => simp [shadowRel] at hrest
              | cons b2 l2 =>
                  have hlen : (a :: a2 :: l1).length = (b :: b2 :: l2).length :=
                    shadowRel_length h
                  show (generateMessageAux db1 1 (a :: a2 :: l1)).map _
                      = (generateMessageAux db2 1 (b :: b2 :: l2)).map _
                  rw [generateMessageAux_rel db1 db2 hc 1 _ _ h, hlen]

theorem searchTasksByDateRange_rel (u : User) (sv ev : Json) (db1 db2 : DB)
    (h : DBRel u db1 db2) :
    searchTasksByDateRange u sv ev db1 = searchTasksByDateRange u sv ev db2 := by
  unfold searchTasksByDateRange
  rcases sv with _ | _ | _ | ss | _ | _
  all_goals try rfl
  rcases hps : parseDateStrptime ss with _ | sd <;> simp only [hps]
  rcases ev with _ | _ | _ | es | _ | _
  all_goals try rfl
  rcases hpe : parseDateStrptime es with _ | ed <;> simp only [hpe]
  by_cases hlt : (ed.lt sd) = true
  · simp only [if_pos hlt]
  · simp only [if_neg hlt]
    have hrel := searchTasks_rel u
      [("start_date", Json.str ss), ("end_date", Json.str es)] db1 db2 h
    rcases hx : searchTasks u
        [("start_date", Json.str ss), ("end_date", Json.str es)] db1 with e1 | r1 <;>
      rcases hy : searchTasks u
          [("start_date", Json.str ss), ("end_date", Json.str es)] db2 with e2 | r2 <;>
      rw [hx, hy] at hrel <;> simp only [relL] at hrel <;> simp only [hx, hy]
    rw [generateMessage_rel db1 db2 h.cats r1 r2 hrel, shadowRel_length hrel]

theorem createTask_rel (u : User) (args : List (String × Json))
    (db1 db2 : DB) (h : DBRel u db1 db2) :
    (createTask u args db1).1 = (createTask u args db2).1 ∧
    DBRel u (createTask u args db1).2 (createTask u args db2).2 := by
  simp only [createTask, h.cats]
  rcases hb : buildTask u args db2.cats with p | mk <;> simp only [hb]
  · exact ⟨by trivial, h⟩
  · have hsh := buildTask_ok_shadow u args db2.cats mk hb
    constructor
    · have h0 := congrArg TaskRow.title (hsh db1.nextTaskId db2.nextTaskId)
      have ht : (mk db1.nextTaskId).title = (mk db2.nextTaskId).title := h0
      rw [ht]
    · refine ⟨?_, by trivial⟩
      show shadowRel
        ((db1.tasks ++ [mk db1.nextTaskId]).filter (fun t => t.user == u))
        ((db2.tasks ++ [mk db2.nextTaskId]).filter (fun t => t.user == u))
      rw [List.filter_append, List.filter_append]
      have hu1 : ((mk db1.nextTaskId).user == u) = true := by
        rw [(buildTask_ok_row u args db2.cats mk hb db1.nextTaskId).2]; simp
      have hu2 : ((mk db2.nextTaskId).user == u) = true := by
        rw [(buildTask_ok_row u args db2.cats mk hb db2.nextTaskId).2]; simp
      have hf1 : List.filter (fun t => t.user == u) [mk db1.nextTaskId]
          = [mk db1.nextTaskId] := by simp [hu1]
      have hf2 : List.filter (fun t => t.user == u) [mk db2.nextTaskId]
          = [mk db2.nextTaskId] := by simp [hu2]
      rw [hf1, hf2]
      exact shadowRel_append h.tasks (shadowRel_cons.mpr ⟨hsh _ _, rfl⟩)

/-- The UPDATE commuted through the `u`-filter: updating then keeping
`u`'s rows is keeping `u`'s rows then updating on the filter predicate
alone. -/
theorem filter_user_map_update (l : List TaskRow) (u : User)
    (p : TaskRow → Bool) (sstr : String) :
    (l.map (fun t => if t.user == u && p t then { t with status := sstr } else t)).filter
      (fun t => t.user == u) =
    (l.filter (fun t => t.user == u)).map
      (fun t => if p t then { t with status := sstr } else t) := by
  induction l with
  | nil => rfl
  | cons t l ih =>
      have huser :
          ((if t.user == u && p t then { t with status := sstr } else t) : TaskRow).user
            = t.user := by
        split <;> rfl
      rw [List.map_cons, List.filter_cons, List.filter_cons, huser]
      by_cases htu : (t.user == u) = true
      · rw [if_pos htu, if_pos htu, List.map_cons]
        have hg : (if t.user == u && p t then { t with status := sstr } else t)
            = if p t then { t with status := sstr } else t := by
          cases hp : p t <;> simp [htu, hp]
        rw [hg, ih]
      · rw [if_neg htu, if_neg htu]
        exact ih

theorem map_update_shadowRel {p : TaskRow → Bool} (hp : shadowInv p) (sstr : String)
    {l1 l2 : List TaskRow} (h : shadowRel l1 l2) :
    shadowRel (l1.map (fun t => if p t then { t with status := sstr } else t))
              (l2.map (fun t => if p t then { t with status := sstr } else t)) := by
  induction l1 generalizing l2 with
  | nil =>
      cases l2 with
      | nil => rfl
      | cons b l2 => simp [shadowRel] at h
  | cons a l1 ih =>
      cases l2 with
      | nil => simp [shadowRel] at h
      | cons b l2 =>
          obtain ⟨hab, hrest⟩ := shadowRel_cons.mp h
          rw [List.map_cons, List.map_cons]
          refine shadowRel_cons.mpr ⟨?_, ih hrest⟩
          rw [shadowInv_eq hp hab]
          by_cases hb : p b = true
          · rw [if_pos hb, if_pos hb]
            exact congrArg (fun t => ({ t with status := sstr } : TaskRow)) hab
          · rw [if_neg hb, if_neg hb]
            exact hab

theorem list_isEmpty_congr {l1 l2 : List TaskRow} (h : l1.length = l2.length) :
    l1.isEmpty = l2.isEmpty := by
  cases l1 <;> cases l2 <;> simp_all

theorem setTaskStatus_rel (u : User) (args : List (String × Json))
    (db1 db2 : DB) (h : DBRel u db1 db2) :
    (setTaskStatus u args db1).1 = (setTaskStatus u args db2).1 ∧
    DBRel u (setTaskStatus u args db1).2 (setTaskStatus u args db2).2 := by
  simp only [setTaskStatus]
  rcases hg : Json.getKey args "status" with _ | sv <;> simp only [hg]
  · exact ⟨by trivial, h⟩
  · rcases hum : unhashableMsg sv with _ | m <;> simp only [hum]
    · rcases hk : statusKey sv with _ | sstr <;> simp only [hk]
      · exact ⟨by trivial, h⟩
      · rcases hfp : filtersPredE (Json.eraseKey args "status") with e | p <;>
          simp only [hfp]
        · exact ⟨by trivial, h⟩
        · have hp := filtersPredE_shadowInv _ p hfp
          have hm : shadowRel ((tasksOf u db1).filter p) ((tasksOf u db2).filter p) :=
            filter_shadowRel hp h.tasks
          have hlen := shadowRel_length hm
          have hie := list_isEmpty_congr hlen
          by_cases he : ((tasksOf u db1).filter p).isEmpty = true
          · rw [if_pos he, if_pos (hie.symm.trans he)]
            exact ⟨by trivial, h⟩
          · rw [if_neg he, if_neg (fun hc => he (hie.trans hc))]
            constructor
            · rw [hlen]
            · refine ⟨?_, h.cats⟩
              show shadowRel
                ((db1.tasks.map (fun t =>
                  if t.user == u && p t then { t with status := sstr } else t)).filter
                    (fun t => t.user == u))
                ((db2.tasks.map (fun t =>
                  if t.user == u && p t then { t with status := sstr } else t)).filter
                    (fun t => t.user == u))
              rw [filter_user_map_update, filter_user_map_update]
              exact map_update_shadowRel hp sstr h.tasks
    · exact ⟨by trivial, h⟩

/-- Relating two fallible dispatch results: same exception or same
payload with still-related databases. -/
def relX (u : User) (x y : Except String (Json × DB)) : Prop :=
  match x, y with
  | .ok r1, .ok r2 => r1.1 = r2.1 ∧ DBRel u r1.2 r2.2
  | .error e1, .error e2 => e1 = e2
  | _, _ => False

theorem executeToolCall_rel (u : User) (tn ar : Json) (db1 db2 : DB)
    (h : DBRel u db1 db2) :
    relX u (executeToolCall u tn ar db1) (executeToolCall u tn ar db2) := by
  unfold executeToolCall
  by_cases h1 : tn = Json.str "create_task"
  · simp only [if_pos h1]
    rcases ar with _ | _ | _ | _ | _ | o
    all_goals try exact rfl
    by_cases hu : (Json.getKey o "user").isSome = true
    · simp only [if_pos hu]; exact rfl
    · simp only [if_neg hu]
      exact createTask_rel u o db1 db2 h
  simp only [if_neg h1]
  by_cases h2 : tn = Json.str "set_task_status"
  · simp only [if_pos h2]
    rcases ar with _ | _ | _ | _ | _ | o
    all_goals try exact rfl
    by_cases hu : (Json.getKey o "user").isSome = true
    · simp only [if_pos hu]; exact rfl
    · simp only [if_neg hu]
      exact setTaskStatus_rel u o db1 db2 h
  simp only [if_neg h2]
  by_cases h3 : tn = Json.str "search_tasks_by_date_range"
  · simp only [if_pos h3]
    rcases ar with _ | _ | _ | _ | _ | o
    all_goals try exact rfl
    by_cases hu : (Json.getKey o "user").isSome = true
    · simp only [if_pos hu]; exact rfl
    · simp only [if_neg hu]
      rcases hs : Json.getKey o "start_date" with _ | sv <;>
        rcases he : Json.getKey o "end_date" with _ | ev <;>
          simp only [hs, he]
      all_goals try exact rfl
      by_cases ha : (o.all fun p => p.1 == "start_date" || p.1 == "end_date") = true
      · simp only [if_pos ha]
        exact ⟨searchTasksByDateRange_rel u sv ev db1 db2 h, h⟩
      · simp only [if_neg ha]; exact rfl
  simp only [if_neg h3]
  exact ⟨by trivial, h⟩

/-- Relating two loop-iteration results. -/
def relP (u : User) (x y : Except String (Option Json × DB)) : Prop :=
  match x, y with
  | .ok r1, .ok r2 => r1.1 = r2.1 ∧ DBRel u r1.2 r2.2
  | .error e1, .error e2 => e1 = e2
  | _, _ => False

theorem processCall_rel (u : User) (c : Json) (db1 db2 : DB) (h : DBRel u db1 db2) :
    relP u (processCall u c db1) (processCall u c db2) := by
  unfold processCall
  rcases c with _ | _ | _ | _ | _ | o
  all_goals try exact rfl
  by_cases ht : (!((Json.getKey o "tool").getD .null).truthy) = true
  · simp only [if_pos ht]; exact ⟨by trivial, h⟩
  · simp only [if_neg ht]
    have hrel := executeToolCall_rel u ((Json.getKey o "tool").getD .null)
      ((Json.getKey o "args").getD (.obj [])) db1 db2 h
    rcases hx : executeToolCall u ((Json.getKey o "tool").getD .null)
        ((Json.getKey o "args").getD (.obj [])) db1 with e1 | ⟨r1, d1⟩ <;>
      rcases hy : executeToolCall u ((Json.getKey o "tool").getD .null)
          ((Json.getKey o "args").getD (.obj [])) db2 with e2 | ⟨r2, d2⟩ <;>
      rw [hx, hy] at hrel <;> simp only [relX] at hrel <;> simp only [hx, hy]
    · rw [hrel]
      exact ⟨by trivial, h⟩
    · obtain ⟨hr, hd⟩ := hrel
      rw [hr]
      exact ⟨by trivial, hd⟩

theorem executeCalls_rel (u : User) : ∀ (calls : List Json) (db1 db2 : DB),
    DBRel u db1 db2 →
    (executeCalls u calls db1).1 = (executeCalls u calls db2).1 ∧
    DBRel u (executeCalls u calls db1).2 (executeCalls u calls db2).2 := by
  intro calls
  induction calls with
  | nil => exact fun db1 db2 h => ⟨by trivial, h⟩
  | cons c rest ih =>
      intro db1 db2 h
      simp only [executeCalls]
      have hrel := processCall_rel u c db1 db2 h
      rcases hx : processCall u c db1 with e1 | ⟨en1, d1⟩ <;>
        rcases hy : processCall u c db2 with e2 | ⟨en2, d2⟩ <;>
        rw [hx, hy] at hrel <;> simp only [relP] at hrel <;> simp only [hx, hy]
      · rw [hrel]
        exact ⟨by trivial, h⟩
      · obtain ⟨hen, hd⟩ := hrel
        obtain ⟨hres, hdb⟩ := ih d1 d2 hd
        rcases hr1 : executeCalls u rest d1 with ⟨e1 | l1, db1f⟩ <;>
          rcases hr2 : executeCalls u rest d2 with ⟨e2 | l2, db2f⟩ <;>
          simp only [hr1, hr2] at hres hdb <;> simp only [hr1, hr2]
        · exact ⟨hres, hdb⟩
        · cases hres
        · cases hres
        · injection hres with hres
          rw [hres, hen]
          exact ⟨by trivial, hdb⟩

theorem executeBatch_rel (u : User) (tc : Json) (db1 db2 : DB)
    (h : DBRel u db1 db2) :
    (executeBatch u tc db1).1 = (executeBatch u tc db2).1 ∧
    DBRel u (executeBatch u tc db1).2 (executeBatch u tc db2).2 := by
  unfold executeBatch
  rcases tc with _ | _ | _ | _ | calls | _
  all_goals try exact ⟨by trivial, h⟩
  exact executeCalls_rel u calls db1 db2 h

theorem fallback_rel (env : Env) (u : User) (db1 db2 : DB) (h : DBRel u db1 db2) :
    (fallback env u db1).1 = (fallback env u db2).1 ∧
    DBRel u (fallback env u db1).2 (fallback env u db2).2 := by
  unfold fallback
  rcases h1 : env.resp1 with e | raw1 <;> simp only [h1]
  · exact ⟨by trivial, h⟩
  rcases h2 : stage1Decide raw1 with e | p | tools <;> simp only [h2]
  · exact ⟨by trivial, h⟩
  · exact ⟨by trivial, h⟩
  rcases h3 : env.resp2 with e | raw2 <;> simp only [h3]
  · exact ⟨by trivial, h⟩
  rcases h4 : stage2Decide raw2 with e | p | tc <;> simp only [h4]
  · exact ⟨by trivial, h⟩
  · exact ⟨by trivial, h⟩
  obtain ⟨hres, hdb⟩ := executeBatch_rel u tc db1 db2 h
  rcases hb1 : executeBatch u tc db1 with ⟨e1 | entries1, d1⟩ <;>
    rcases hb2 : executeBatch u tc db2 with ⟨e2 | entries2, d2⟩ <;>
    simp only [hb1, hb2] at hres hdb <;> simp only [hb1, hb2]
  · injection hres with hres
    rw [hres]
    exact ⟨by trivial, hdb⟩
  · cases hres
  · cases hres
  · injection hres with hres
    rcases h5 : env.resp3 with e | raw3 <;> simp only [h5]
    · exact ⟨by trivial, hdb⟩
    · rw [hres]
      exact ⟨by trivial, hdb⟩

theorem getAiResponse_rel (env : Env) (u : User) (db1 db2 : DB)
    (h : DBRel u db1 db2) :
    (getAiResponse env u db1).1 = (getAiResponse env u db2).1 ∧
    DBRel u (getAiResponse env u db1).2 (getAiResponse env u db2).2 := by
  unfold getAiResponse
  obtain ⟨hres, hdb⟩ := fallback_rel env u db1 db2 h
  rcases hb1 : fallback env u db1 with ⟨e1 | r1, d1⟩ <;>
    rcases hb2 : fallback env u db2 with ⟨e2 | r2, d2⟩ <;>
    simp only [hb1, hb2] at hres hdb <;> simp only [hb1, hb2]
  · injection hres with hres
    rw [hres]
    exact ⟨by trivial, hdb⟩
  · cases hres
  · cases hres
  · injection hres with hres
    rw [hres]
    exact ⟨by trivial, hdb⟩

/-- A run whose stage-1 response selects `search_tasks_by_date_range`,
whose stage-2 response extracts one call over 2025, and whose stage-3
response is not JSON. -/
def envSearch : Env :=
  { resp1 := .ok "\x7b\"tool\": \"search_tasks_by_date_range\"\x7d",
    resp2 := .ok "\x7b\"tool_calls\": [\x7b\"tool\": \"search_tasks_by_date_range\", \"args\": \x7b\"start_date\": \"2025-01-01\", \"end_date\": \"2025-12-31\"\x7d\x7d]\x7d",
    resp3 := .ok "done" }

/-- `dbA` with the id sequence advanced, as another user's earlier
activity would leave it. -/
def dbA99 : DB := { dbA with nextTaskId := 99 }

set_option maxRecDepth 10000 in
/-- C8 counterexample: `dbA` and `dbB` hold identical task tables and
identical user-1 category rows (none) — they differ only in the name of
user 2's category 7.  Yet a search run by user 1 returns different
payloads on the two stores: `generate_message` follows `task.category`
by primary key with no owner check, so user 1's run reads user 2's
Category row, refuting "a pipeline run invoked as user A neither reads
nor modifies Task or Category rows owned by B". -/
theorem C8_counterexample :
    dbA.tasks = dbB.tasks ∧ dbA.nextTaskId = dbB.nextTaskId ∧
    (∀ c ∈ dbA.cats, c.user = 2) ∧ (∀ c ∈ dbB.cats, c.user = 2) ∧
    catsOf 1 dbA = catsOf 1 dbB ∧
    (getAiResponse envSearch 1 dbA).1 ≠ (getAiResponse envSearch 1 dbB).1 := by
  refine ⟨rfl, rfl, by decide, by decide, rfl, ?_⟩
  decide

/-- C8 (amended): runs for distinct users interact only through the
global id sequence and the shared category table.  (1) A run as `u`
writes nothing outside `u`'s task rows: the category table and every
other user's task list are unchanged.  (2) A run as `u` reads only
`u`'s task rows up to primary keys and the category table: on two
stores so related it returns the same payload and keeps them related.
(3) Consequently a later run by another user `vb` returns the same
payload whether or not `u`'s run happened.  (What fails in the original
claim is only the read clause: part (2) conditions on the whole
category table, because `generate_message` reads other users' Category
rows — see the counterexample.) -/
theorem C8_cross_user_isolation (env : Env) (u : User) (db : DB) :
    ((getAiResponse env u db).2.cats = db.cats ∧
     ∀ v, v ≠ u → tasksOf v (getAiResponse env u db).2 = tasksOf v db) ∧
    (∀ db2, DBRel u db db2 →
      (getAiResponse env u db).1 = (getAiResponse env u db2).1 ∧
      DBRel u (getAiResponse env u db).2 (getAiResponse env u db2).2) ∧
    (∀ envB vb, vb ≠ u →
      (getAiResponse envB vb (getAiResponse env u db).2).1
        = (getAiResponse envB vb db).1) := by
  refine ⟨getAiResponse_pres env u db, ?_, ?_⟩
  · intro db2 h
    exact getAiResponse_rel env u db db2 h
  · intro envB vb hvb
    have hpres := getAiResponse_pres env u db
    have hrel : DBRel vb (getAiResponse env u db).2 db := by
      refine ⟨?_, hpres.1⟩
      rw [hpres.2 vb hvb]
      exact rfl
    exact (getAiResponse_rel envB vb _ db hrel).1

theorem C8_witness :
    ((2 : User) ≠ 1 ∧
      tasksOf 2 (getAiResponse envSearch 1 dbA).2 = tasksOf 2 dbA) ∧
    (DBRel 1 dbA dbA99 ∧
      (getAiResponse envSearch 1 dbA).1 = (getAiResponse envSearch 1 dbA99).1) ∧
    (getAiResponse envSearch 2 (getAiResponse envSearch 1 dbA).2).1
      = (getAiResponse envSearch 2 dbA).1 :=
  ⟨⟨by decide, (C8_cross_user_isolation envSearch 1 dbA).1.2 2 (by decide)⟩,
   ⟨⟨rfl, rfl⟩,
    ((C8_cross_user_isolation envSearch 1 dbA).2.1 dbA99 ⟨rfl, rfl⟩).1⟩,
   (C8_cross_user_isolation envSearch 1 dbA).2.2 envSearch 2 (by decide)⟩

end TaskManager
